import Mathlib

/-!
# OMODFrameworkWrapper: the install adapter

A shallow embedding of `OMODFrameworkWrapper::install` and
`OMODFrameworkWrapper::initFrameworkSettings` (src/OMODFrameworkWrapper.cpp),
and the properties of the specification proved about it.

The adapter is sequential glue around three things it does not own: the host
(Mod Organizer), the wrapped OMOD framework and the platform (Qt, .NET, the
Windows profile API).  Their answers are inputs of the model (`Host`,
`Framework`, `Platform`, `User`); every call the adapter makes to them that
is visible from outside is appended to a trace of `Event`s, in program order.
The contents of the ini files are an abstract state `σ` that only the
platform's profile functions can inspect or change.

What the model takes for granted:

* the string converters between Qt and .NET keep a string as it is, a null
  .NET string becoming a null (empty) `QString`;
* a run of the script is a single call: what the script itself shows or
  changes through its callback object is not part of the trace;
* `MajorVersion`, `MinorVersion` and `BuildVersion` are of type `int`, so the
  cast `int(...)` keeps their value;
* the comparison `InvariantCultureIgnoreCase` is an input like the other
  platform functions; what is proved about the installed plugins assumes no
  more of it than that it is an equivalence relation;
* of the calls into the platform, only the creation of a directory and the
  copy of a file in the copy loop, the opening of the archive and the run of
  the script may throw.
-/

set_option autoImplicit false
set_option linter.unusedVariables false

namespace OMODFrameworkWrapper

/-! ## Data model -/

/-- Modelled from the spec: the outcome codes of the host's installer
interface (`MOBase::IPluginInstaller::EInstallResult`, declared in the host's
headers).  The adapter itself only ever returns the first two. -/
inductive EInstallResult where
  | RESULT_SUCCESS
  | RESULT_CANCELED
  | RESULT_MANUALREQUESTED
  | RESULT_NOTATTEMPTED
  deriving DecidableEq, Repr

/-- What a call of `install` ends with: a returned code, or an exception that
leaves the function (both `catch` clauses rethrow). -/
inductive Outcome where
  | returned (code : EInstallResult)
  | thrown (what : String)
  deriving DecidableEq, Repr

/-- The buttons of the two `QMessageBox::question` dialogs. -/
inductive StandardButton where
  | Yes
  | No
  | YesToAll
  | NoToAll
  deriving DecidableEq, Repr

/-- A translatable text with its arguments: `tr(source).arg(a₁)….arg(aₙ)`. -/
structure Tr where
  source : String
  args : List String
  deriving DecidableEq, Repr

/-- Severity of a line sent to `MOBase::log`. -/
inductive Level where
  | debug
  | warn
  | error
  deriving DecidableEq, Repr

/-- The fields of `OMODFramework::INIEditInfo` the adapter reads;
`OldValue` may be null. -/
structure INIEditInfo where
  Section : String
  Name : String
  NewValue : String
  OldValue : Option String
  deriving DecidableEq, Repr

/-- The fields of `OMODFramework::InstallFile`. -/
structure InstallFile where
  InstallFrom : String
  InstallTo : String
  deriving DecidableEq, Repr

/-- A collection of the script result that the adapter only asks for its
`Count`. -/
structure Collection where
  Count : Nat
  deriving DecidableEq, Repr

/-- The fields of `OMODFramework::ScriptReturnData` the adapter reads.  Every
collection but `InstallFiles` is tested for null before it is used. -/
structure ScriptReturnData where
  CancelInstall : Bool
  INIEdits : Option (List INIEditInfo)
  InstallFiles : List InstallFile
  UncheckedPlugins : Option (List String)
  ESPDeactivation : Option Collection
  EarlyPlugins : Option Collection
  LoadOrderSet : Option Collection
  ConflictsWith : Option Collection
  DependsOn : Option Collection
  RegisterBSASet : Option Collection
  SDPEdits : Option Collection
  ESPEdits : Option Collection
  PatchFiles : Option Collection
  deriving DecidableEq, Repr

/-- The members of an opened `OMODFramework::OMOD` the adapter reads.
`ModName` may be null; `GetDataFiles` and `GetPlugins` hold what the methods
of that name return (null when the archive has no such part). -/
structure OMOD where
  ModName : Option String
  HasReadme : Bool
  GetReadme : String
  HasScript : Bool
  MajorVersion : Int
  MinorVersion : Int
  BuildVersion : Int
  GetDataFiles : Option String
  GetPlugins : Option String
  deriving DecidableEq, Repr

/-- Quality levels of a guessed value (host type `MOBase::EGuessQuality`). -/
inductive EGuessQuality where
  | GUESS_INVALID
  | GUESS_FALLBACK
  | GUESS_GOOD
  | GUESS_META
  | GUESS_PRESET
  | GUESS_USER
  deriving DecidableEq, Repr

/-- The host's `MOBase::GuessedValue<QString>`: the current value and the
quality it was set with. -/
structure GuessedValue where
  value : String
  quality : EGuessQuality
  deriving DecidableEq, Repr

/-- The host's `MOBase::IModInterface`, as far as the adapter reads it. -/
structure IModInterface where
  absolutePath : String
  deriving DecidableEq, Repr

/-- The object `initFrameworkSettings` stores in
`Framework::Settings->LoggingSettings`. -/
structure LoggingSettings where
  UseLogger : Bool
  LogToFile : Bool
  LowestLoggingLevel : Nat
  deriving DecidableEq, Repr

/-- The object `initFrameworkSettings` stores in
`Framework::Settings->ScriptExecutionSettings`. -/
structure ScriptExecutionSettings where
  EnableWarnings : Bool
  OblivionGamePath : String
  OblivionINIPath : String
  OblivionRendererInfoPath : String
  ReadINIWithInterface : Bool
  ReadRendererInfoWithInterface : Bool
  HandleBSAsWithInterface : Bool
  PatchWithInterface : Bool
  UseSafePatching : Bool
  deriving DecidableEq, Repr

/-- The process-wide `OMODFramework::Framework::Settings`. -/
structure Settings where
  TempPath : String
  DllPath : String
  LoggingSettings : LoggingSettings
  ScriptExecutionSettings : Option ScriptExecutionSettings
  deriving DecidableEq, Repr

/-- The calls of `install` that are visible outside it. -/
inductive Event where
  | log (level : Level) (format : String) (args : List String)
  | temporaryDir (template : String)
  | temporaryDirRemoved (path : String)
  | openArchive (archiveName : String)
  | createMod (modName : GuessedValue)
  | question (title : String) (text : Tr)
  | readmePopup (readme : String) (title : Tr)
  | runScript
  | getPrivateProfileString (iniSection name path : String)
  | writeRegistryValue (iniSection name value path : String)
  | pretty
  | createDirectory (path : String)
  | fileCopy (source destination : String)
  | information (title : String) (text : Tr)
  | warning (title : String) (text : Tr)
  | shellMove (source destination : String)
  | fileRemove (path : String)
  | setVersion (major minor subminor : Int)
  deriving DecidableEq, Repr

/-! ## The environment of one call -/

/-- The platform functions the adapter calls: .NET path handling, Qt, the
Windows profile API (through `MOBase::WriteRegistryValue` for writes) and the
file operations that can fail.  `σ` is the state of the ini files. -/
structure Platform (σ : Type) where
  /-- The result of `System::IO::Path::Combine`. -/
  Combine : String → String → String
  /-- The result of `System::IO::Path::GetDirectoryName`. -/
  GetDirectoryName : String → String
  /-- The result of `System::IO::Path::GetPathRoot`. -/
  GetPathRoot : String → String
  /-- The result of `QDir(dir).absoluteFilePath(file)`. -/
  absoluteFilePath : String → String → String
  /-- The path of the directory a `QTemporaryDir` made from a template
  (empty when it could not be made). -/
  temporaryDirPath : String → String
  /-- The value the profile API finds for a key of a section of the ini
  file at a path, if the key is set. -/
  profileLookup : σ → (path iniSection key : String) → Option String
  /-- The ini files after `MOBase::WriteRegistryValue(section, key, value, path)`. -/
  WriteRegistryValue : σ → (iniSection key value path : String) → σ
  /-- What `System::IO::Directory::CreateDirectory(path)` does: it returns,
  or throws the exception given. -/
  CreateDirectory : String → Except String Unit
  /-- What `System::IO::File::Copy(from, to, true)` does: it returns, or
  throws the exception given. -/
  FileCopy : String → String → Except String Unit
  /-- The result of `MOBase::shellMove(source, destination, true, parent)`. -/
  shellMove : String → String → Bool
  /-- Whether two strings are equal under `InvariantCultureIgnoreCase`: the
  comparison of `String::Equals` in line 184 and the comparer of the set
  `installedPlugins` of line 177. -/
  equalsIgnoreCase : String → String → Bool

/-- The host, as `mMoInfo` presents it during one call. -/
structure Host where
  modsPath : String
  /-- The result of `createMod(name)`: the name as the host leaves it, and the mod
  container (null when the host made none). -/
  createMod : GuessedValue → GuessedValue × Option IModInterface
  /-- The result of `GuessedValue::update(value, quality)`. -/
  update : GuessedValue → String → EGuessQuality → GuessedValue
  localSettingsEnabled : Bool
  profileAbsolutePath : String
  documentsDirectory : String
  gameDirectory : String
  /-- The value of `Logger::OMODLoggingLevel(MOBase::log::getDefault().level())`,
  a function of the adapter's own logger that is taken as given. -/
  omodLoggingLevel : Nat

/-- The wrapped framework on the archive of this call. -/
structure Framework where
  /-- The constructor `OMODFramework::OMOD(archiveName)`: the opened archive,
  or the exception it throws. -/
  omod : Except String OMOD
  /-- What `ScriptRunner::RunScript` does: the result data (possibly null), or the
  exception it throws. -/
  RunScript : Except String (Option ScriptReturnData)
  /-- The script result after `scriptData->Pretty(omod, data, plugins)`. -/
  Pretty : ScriptReturnData → OMOD → Option String → Option String → ScriptReturnData

/-- The user: the answer to the readme question, and the answer to the
k-th "Update INI?" prompt (counted from 0). -/
structure User where
  displayReadme : StandardButton
  updateINI : Nat → StandardButton

/-- The state a call works on: the ini files, the framework's settings, the
calls made so far and the number of "Update INI?" prompts answered so far. -/
structure World (σ : Type) where
  ini : σ
  settings : Settings
  trace : List Event
  asked : Nat

variable {σ : Type}

/-- Append one call to the trace. -/
def World.emit (w : World σ) (e : Event) : World σ :=
  { w with trace := w.trace ++ [e] }

/-! ## Library functions with a fixed meaning -/

/-- Qt's `QString::mid(position, n)`: the `n` characters from `position` on, or
all of them when `n` is negative or more than there are; null (empty) when
`position` is past the end. -/
def QString.mid (s : String) (position : Nat) (n : Int) : String :=
  if s.length < position then ""
  else if n < 0 ∨ (s.length - position : Nat) < n.toNat then String.mk (s.data.drop position)
  else String.mk ((s.data.drop position).take n.toNat)

/-- Windows' `GetPrivateProfileString(section, name, nullptr, buffer, nSize, path)`:
the value found (the empty default otherwise), cut to `nSize - 1` characters,
is copied to the buffer and its length returned. -/
def GetPrivateProfileString (P : Platform σ) (ini : σ) (iniSection name path : String)
    (nSize : Nat) : Nat × String :=
  let value := (P.profileLookup ini path iniSection name).getD ""
  let buffer := String.mk (value.data.take (nSize - 1))
  (buffer.length, buffer)

/-! ## The ini edits (lines 108-173) -/

/-- The local `oblivionIniPath`, line 110. -/
def oblivionIniPath (P : Platform σ) (H : Host) : String :=
  P.absoluteFilePath
    (if H.localSettingsEnabled then H.profileAbsolutePath else H.documentsDirectory)
    "Oblivion.ini"

/-- State of the for-each loop after one iteration; `stop` is the `break`. -/
structure EditStep (σ : Type) where
  world : World σ
  yesToAll : Bool
  stop : Bool

/-- Lines 165-171: `response` is only read when `yesToAll` is false, and is
then the answer of this iteration's prompt. -/
def doEdit (P : Platform σ) (path iniSection name newValue : String) (yesToAll : Bool)
    (response : Option StandardButton) (w : World σ) : World σ :=
  if yesToAll ∨ response = some StandardButton.Yes then
    let w := w.emit (.log .debug "Doing edit." [])
    { w.emit (.writeRegistryValue iniSection name newValue path) with
      ini := P.WriteRegistryValue w.ini iniSection name newValue path }
  else
    w.emit (.log .debug "User skipped edit." [])

/-- The body of the for-each loop, lines 114-171. -/
def iniEdit (P : Platform σ) (U : User) (modName path : String) (edit : INIEditInfo)
    (yesToAll : Bool) (w : World σ) : EditStep σ :=
  let iniSection := QString.mid edit.Section 1 ((edit.Section.length : Int) - 2)
  let name := edit.Name
  let newValue := edit.NewValue
  let read : String × World σ :=
    match edit.OldValue with
    | some old => (old, w)
    | none =>
      let r := GetPrivateProfileString P w.ini iniSection name path 256
      (if r.1 ≠ 0 then r.2 else "", w.emit (.getPrivateProfileString iniSection name path))
  let oldValue := read.1
  let w := read.2.emit (.log .debug
    "OMOD wants to set [\x7b\x7d] \x7b\x7d to \"\x7b\x7d\", was \"\x7b\x7d\""
    [iniSection, name, newValue, oldValue])
  if yesToAll then
    { world := doEdit P path iniSection name newValue yesToAll none w, yesToAll := yesToAll,
      stop := false }
  else
    let message : Tr :=
      if oldValue ≠ "" then
        ⟨"%1 wants to change [%2] %3 from \"%4\" to \"%5\"",
          [modName, iniSection, name, oldValue, newValue]⟩
      else
        ⟨"%1 wants to set [%2] %3 to \"%4\"", [modName, iniSection, name, newValue]⟩
    let response := U.updateINI w.asked
    let w := { w.emit (.question "Update INI?" message) with asked := w.asked + 1 }
    if response = StandardButton.NoToAll then
      { world := w.emit (.log .debug "User skipped all." []), yesToAll := yesToAll, stop := true }
    else
      let yesToAll := yesToAll || decide (response = StandardButton.YesToAll)
      { world := doEdit P path iniSection name newValue yesToAll (some response) w,
        yesToAll := yesToAll, stop := false }

/-- The for-each loop over `scriptData->INIEdits`, lines 112-172. -/
def iniEditLoop (P : Platform σ) (U : User) (modName path : String) :
    List INIEditInfo → Bool → World σ → World σ
  | [], _, w => w
  | edit :: rest, yesToAll, w =>
    let s := iniEdit P U modName path edit yesToAll w
    if s.stop then s.world else iniEditLoop P U modName path rest s.yesToAll s.world

/-- Lines 108-173: the loop runs when `INIEdits` is non-null and non-empty,
starting with `yesToAll = false`. -/
def applyINIEdits (P : Platform σ) (H : Host) (U : User) (modName : String)
    (scriptData : ScriptReturnData) (w : World σ) : World σ :=
  match scriptData.INIEdits with
  | none => w
  | some edits =>
    if edits.length ≠ 0 then
      iniEditLoop P U modName (oblivionIniPath P H) edits false w
    else w

/-! ## The file copies and the installed plugins (lines 175-203) -/

/-- The scan of `System::IO::Path::GetExtension` from the end of the path:
`seen` holds the characters already passed, in path order. -/
def getExtensionFrom : List Char → List Char → List Char
  | [], _ => []
  | ch :: before, seen =>
    if ch = '.' then
      (if seen = [] then [] else '.' :: seen)
    else if ch = '/' ∨ ch = Char.ofNat 92 ∨ ch = ':' then []
    else getExtensionFrom before (ch :: seen)

/-- The result of `System::IO::Path::GetExtension(path)`: the last dot after
the last directory or volume separator and what follows it, empty when there
is no such dot or nothing follows it. -/
def GetExtension (path : String) : String :=
  String.mk (getExtensionFrom path.data.reverse [])

/-- Membership in a `HashSet<String^>` made with the comparer
`InvariantCultureIgnoreCase`, the set being the list of its elements in the
order they were added. -/
def HashSet.Contains (P : Platform σ) (set : List String) (item : String) : Bool :=
  set.any (fun e => P.equalsIgnoreCase e item)

/-- The set after `Add(item)`: unchanged when an equal element is present. -/
def HashSet.Add (P : Platform σ) (set : List String) (item : String) : List String :=
  if HashSet.Contains P set item then set else set ++ [item]

/-- The set after `ExceptWith(other)`: every element equal to one of `other`
is removed. -/
def HashSet.ExceptWith (P : Platform σ) (set other : List String) : List String :=
  set.filter (fun e => !(other.any (fun o => P.equalsIgnoreCase e o)))

/-- The for-each loop over `scriptData->InstallFiles`, lines 178-186: the
world, and either the exception that ended the loop or `installedPlugins`. -/
def copyInstallFiles (P : Platform σ) (modPath : String) :
    List InstallFile → List String → World σ → World σ × Except String (List String)
  | [], installedPlugins, w => (w, .ok installedPlugins)
  | file :: rest, installedPlugins, w =>
    let destinationPath := P.Combine modPath file.InstallTo
    let directory := P.GetDirectoryName destinationPath
    let w := w.emit (.createDirectory directory)
    match P.CreateDirectory directory with
    | .error what => (w, .error what)
    | .ok _ =>
      let w := w.emit (.fileCopy file.InstallFrom destinationPath)
      match P.FileCopy file.InstallFrom destinationPath with
      | .error what => (w, .error what)
      | .ok _ =>
        let extension := GetExtension file.InstallTo
        let installedPlugins :=
          if P.equalsIgnoreCase extension ".esm" || P.equalsIgnoreCase extension ".esp" then
            HashSet.Add P installedPlugins file.InstallTo
          else installedPlugins
        copyInstallFiles P modPath rest installedPlugins w

/-- Lines 188-189: `installedPlugins` after the unchecked plugins are taken
out of it. -/
def exceptUnchecked (P : Platform σ) (installedPlugins : List String)
    (unchecked : Option (List String)) : List String :=
  match unchecked with
  | some u => HashSet.ExceptWith P installedPlugins u
  | none => installedPlugins

/-- Lines 191-203: the notice about plugins that were not activated. -/
def warnUncheckedPlugins (omod : OMOD) (installedPlugins : List String)
    (unchecked : Option (List String)) (w : World σ) : World σ :=
  match unchecked with
  | none => w
  | some u =>
    if installedPlugins.length ≠ 0 ∧ u.length ≠ 0 then
      w.emit (.information "OMOD didn't activate all plugins"
        ⟨"%1 installed and wants to activate the following plugins:<ul><li>%2</li></ul>However, it didn't try to activate these plugins:<ul><li>%3</li></ul>",
          [omod.ModName.getD "", String.intercalate "</li><li>" installedPlugins,
            String.intercalate "</li><li>" u]⟩)
    else w

/-! ## The unhandled parts of the script result (lines 205-231) -/

/-- The assignment `m[key] = value` on a `std::map<QString, int>`, kept as the
list of its entries in key order. -/
def mapSet : List (String × Nat) → String → Nat → List (String × Nat)
  | [], key, value => [(key, value)]
  | (k, v) :: rest, key, value =>
    if key < k then (key, value) :: (k, v) :: rest
    else if key = k then (k, value) :: rest
    else (k, v) :: mapSet rest key value

/-- The value of `collection ? collection->Count : 0`. -/
def countOrZero (collection : Option Collection) : Nat :=
  match collection with
  | some c => c.Count
  | none => 0

/-- The map built in lines 205-215. -/
def unhandledScriptReturnDataCounts (scriptData : ScriptReturnData) : List (String × Nat) :=
  let m : List (String × Nat) := []
  let m := mapSet m "ESPDeactivation" (countOrZero scriptData.ESPDeactivation)
  let m := mapSet m "EarlyPlugins" (countOrZero scriptData.EarlyPlugins)
  let m := mapSet m "LoadOrderSet" (countOrZero scriptData.LoadOrderSet)
  let m := mapSet m "ConflictsWith" (countOrZero scriptData.ConflictsWith)
  let m := mapSet m "DependsOn" (countOrZero scriptData.DependsOn)
  let m := mapSet m "RegisterBSASet" (countOrZero scriptData.RegisterBSASet)
  let m := mapSet m "SDPEdits" (countOrZero scriptData.SDPEdits)
  let m := mapSet m "ESPEdits" (countOrZero scriptData.ESPEdits)
  let m := mapSet m "PatchFiles" (countOrZero scriptData.PatchFiles)
  m

/-- The loop over the map, lines 217-231. -/
def warnUnhandled (omod : OMOD) (archiveName : String) :
    List (String × Nat) → World σ → World σ
  | [], w => w
  | unhandledThing :: rest, w =>
    let w :=
      if unhandledThing.2 ≠ 0 then
        (w.emit (.warning "Mod Organizer 2 can't completely install this OMOD."
          ⟨"%1 has data for %2, but Mod Organizer 2 doesn't know what to do with it yet. Please report this to the Mod Organizer 2 development team (ideally by sending us your interface log) as we didn't find any OMODs that actually did this, and we need to know that they exist.",
            [omod.ModName.getD "", unhandledThing.1]⟩)).emit
          (.log .warn "\x7b\x7d (\x7b\x7d) contains \x7b\x7d entries for \x7b\x7d"
            [omod.ModName.getD "", archiveName, toString unhandledThing.2, unhandledThing.1])
      else w
    warnUnhandled omod archiveName rest w

/-! ## install -/

/-- The settings after `initFrameworkSettings(tempPath)`, lines 276-305. -/
def initFrameworkSettings (P : Platform σ) (H : Host) (tempPath : String) (settings : Settings) :
    Settings :=
  let settings := if tempPath ≠ "" then { settings with TempPath := tempPath } else settings
  let settings := { settings with
    DllPath := P.Combine (P.GetDirectoryName settings.DllPath) "OMODFramework.Scripting.dll" }
  let loggingSettings : LoggingSettings :=
    { UseLogger := true, LogToFile := false, LowestLoggingLevel := H.omodLoggingLevel }
  let iniLocation :=
    if H.localSettingsEnabled then H.profileAbsolutePath else H.documentsDirectory
  let scriptSettings : ScriptExecutionSettings :=
    { EnableWarnings := true
      OblivionGamePath := H.gameDirectory
      OblivionINIPath := P.Combine iniLocation "Oblivion.ini"
      OblivionRendererInfoPath := P.Combine iniLocation "RendererInfo.txt"
      ReadINIWithInterface := false
      ReadRendererInfoWithInterface := false
      HandleBSAsWithInterface := false
      PatchWithInterface := false
      UseSafePatching := true }
  { settings with LoggingSettings := loggingSettings, ScriptExecutionSettings := some scriptSettings }

/-- Lines 84-95: the offer to display the readme. -/
def displayReadme (U : User) (omod : OMOD) (w : World σ) : World σ :=
  if omod.HasReadme then
    let w := w.emit (.question "Display Readme?"
      ⟨"The Readme may explain installation options. Display it?<br>It will remain visible until you close it.", []⟩)
    if U.displayReadme = StandardButton.Yes then
      w.emit (.readmePopup omod.GetReadme ⟨"%1 Readme", [omod.ModName.getD ""]⟩)
    else w
  else w

/-- The branch `if (omod.HasScript)`, lines 99-231: the world, and the
outcome when the branch leaves `install` (none when control goes on to line
256). -/
def installWithScript (P : Platform σ) (H : Host) (F : Framework) (U : User) (omod : OMOD)
    (modName : GuessedValue) (modInterface : IModInterface) (archiveName : String)
    (w : World σ) : World σ × Option Outcome :=
  let w := w.emit (.log .debug "Mod has script. Run it." [])
  let w := w.emit .runScript
  match F.RunScript with
  | .error what => (w, some (.thrown what))
  | .ok none =>
    (w, some (.thrown "OMOD script returned no result. This isn't supposed to happen."))
  | .ok (some scriptData) =>
    if scriptData.CancelInstall then (w, some (.returned .RESULT_CANCELED))
    else
      let w := applyINIEdits P H U modName.value scriptData w
      let scriptData := F.Pretty scriptData omod omod.GetDataFiles omod.GetPlugins
      let w := w.emit .pretty
      match copyInstallFiles P modInterface.absolutePath scriptData.InstallFiles [] w with
      | (w, .error what) => (w, some (.thrown what))
      | (w, .ok installedPlugins) =>
        let installedPlugins := exceptUnchecked P installedPlugins scriptData.UncheckedPlugins
        let w := warnUncheckedPlugins omod installedPlugins scriptData.UncheckedPlugins w
        let w := warnUnhandled omod archiveName (unhandledScriptReturnDataCounts scriptData) w
        (w, none)

/-- One of the two moves of the branch without a script, lines 238-245 and
246-253. -/
def moveDirectory (P : Platform σ) (modInterface : IModInterface) (directory : Option String)
    (done failed : String) (w : World σ) : World σ :=
  match directory with
  | none => w
  | some d =>
    let w := w.emit (.shellMove (d ++ "/*.*") modInterface.absolutePath)
    let w :=
      if P.shellMove (d ++ "/*.*") modInterface.absolutePath then w.emit (.log .debug done [])
      else w.emit (.log .error failed [])
    w.emit (.fileRemove d)

/-- The branch for an archive without a script, lines 235-253. -/
def installWithoutScript (P : Platform σ) (omod : OMOD) (modInterface : IModInterface)
    (w : World σ) : World σ :=
  let w := w.emit (.log .debug "Mod has no script. Install contents directly." [])
  let w := moveDirectory P modInterface omod.GetDataFiles
    "Installed mod files." "Error while installing mod files." w
  moveDirectory P modInterface omod.GetPlugins
    "Installed mod plugins." "Error while installing mod plugins." w

/-- The statement `if (omod.HasScript) ... else ...`, lines 97-254: the world,
and the outcome when the statement leaves `install` (none when control goes
on to line 256). -/
def installContents (P : Platform σ) (H : Host) (F : Framework) (U : User) (omod : OMOD)
    (modName : GuessedValue) (modInterface : IModInterface) (archiveName : String)
    (w : World σ) : World σ × Option Outcome :=
  if omod.HasScript then installWithScript P H F U omod modName modInterface archiveName w
  else (installWithoutScript P omod modInterface w, none)

/-- The mod name after lines 75-76. -/
def guessedName (H : Host) (omod : OMOD) (modName : GuessedValue) : GuessedValue :=
  match omod.ModName with
  | none => modName
  | some name => if name = "" then modName else H.update modName name .GUESS_META

/-- Lines 70-264, the part of `install` inside the scope of `tempPath`. -/
def installBody (P : Platform σ) (H : Host) (F : Framework) (U : User)
    (modName : GuessedValue) (archiveName tempPath : String) (w : World σ) :
    World σ × Outcome :=
  let w := { w with settings := initFrameworkSettings P H tempPath w.settings }
  let w := w.emit (.log .debug "Installing \x7b\x7d as OMOD" [archiveName])
  let w := w.emit (.openArchive archiveName)
  match F.omod with
  | .error what => (w, .thrown what)
  | .ok omod =>
    let modName := guessedName H omod modName
    let w := w.emit (.createMod modName)
    let created := H.createMod modName
    match created.2 with
    | none => (w, .returned .RESULT_CANCELED)
    | some modInterface =>
      let w := displayReadme U omod w
      let r := installContents P H F U omod created.1 modInterface archiveName w
      match r.2 with
      | some outcome => (r.1, outcome)
      | none =>
        (r.1.emit (.setVersion (max omod.MajorVersion 0) (max omod.MinorVersion 0)
          (max omod.BuildVersion 0)), .returned .RESULT_SUCCESS)

/-- The function `OMODFrameworkWrapper::install`, lines 65-274, called with
the framework's settings and the ini files as they are before the call: the
world after the call, with the calls made and the prompts answered during
it, and how the call ended.  The arguments `gameName`, `version` and
`nexusID` are not read. -/
def install (P : Platform σ) (H : Host) (F : Framework) (U : User)
    (modName : GuessedValue) (gameName archiveName version : String) (nexusID : Int)
    (settings : Settings) (ini : σ) : World σ × Outcome :=
  let w : World σ := { ini := ini, settings := settings, trace := [], asked := 0 }
  let template := P.Combine (P.GetPathRoot H.modsPath) "OMODTempXXXXXX"
  let tempPath := P.temporaryDirPath template
  let w := w.emit (.temporaryDir template)
  let r := installBody P H F U modName archiveName tempPath w
  (r.1.emit (.temporaryDirRemoved tempPath), r.2)

/-! ## Observations on a trace -/

/-- An ini edit as the user and the ini file see it: section (brackets
removed), key and new value. -/
abbrev IniRequest := String × String × String

/-- The request of an entry of `INIEdits`, lines 114-117. -/
def requestOf (edit : INIEditInfo) : IniRequest :=
  (QString.mid edit.Section 1 ((edit.Section.length : Int) - 2), edit.Name, edit.NewValue)

/-- The request written by an event, when it is an ini write. -/
def Event.iniWrite? : Event → Option IniRequest
  | .writeRegistryValue s n v _ => some (s, n, v)
  | _ => none

/-- The ini writes of a trace, in order. -/
def iniWrites (t : List Event) : List IniRequest :=
  t.filterMap Event.iniWrite?

/-- The request an "Update INI?" prompt asks about, for either form of the
message. -/
def promptRequest (text : Tr) : Option IniRequest :=
  match text.args with
  | [_, s, n, _, v] => some (s, n, v)
  | [_, s, n, v] => some (s, n, v)
  | _ => none

/-- The text of an event, when it is an "Update INI?" prompt. -/
def Event.iniPrompt? : Event → Option Tr
  | .question title text => if title = "Update INI?" then some text else none
  | _ => none

/-- The texts of the "Update INI?" prompts of a trace, in order. -/
def iniPromptTexts (t : List Event) : List Tr :=
  t.filterMap Event.iniPrompt?

/-- The requests the "Update INI?" prompts of a trace ask about, in order. -/
def iniPrompts (t : List Event) : List (Option IniRequest) :=
  (iniPromptTexts t).map promptRequest

/-- The section, key and path read by an event, when it reads the ini file. -/
def Event.iniRead? : Event → Option (String × String × String)
  | .getPrivateProfileString s n p => some (s, n, p)
  | _ => none

/-- The reads of the ini file in a trace, in order. -/
def iniReads (t : List Event) : List (String × String × String) :=
  t.filterMap Event.iniRead?

/-- The source and destination of an event, when it copies or moves files
into the mod container. -/
def Event.fileInstalled? : Event → Option (String × String)
  | .fileCopy s d => some (s, d)
  | .shellMove s d => some (s, d)
  | _ => none

/-- The files copied or moved into the mod container, in order. -/
def filesInstalled (t : List Event) : List (String × String) :=
  t.filterMap Event.fileInstalled?

/-- Whether an event is a run of the script. -/
def Event.scriptRun? : Event → Option Unit
  | .runScript => some ()
  | _ => none

/-- The number of times the script was run. -/
def scriptRuns (t : List Event) : Nat :=
  (t.filterMap Event.scriptRun?).length

/-- The version set by an event, when it sets one. -/
def Event.versionSet? : Event → Option (Int × Int × Int)
  | .setVersion a b c => some (a, b, c)
  | _ => none

/-- The versions set on the mod, in order. -/
def versionsSet (t : List Event) : List (Int × Int × Int) :=
  t.filterMap Event.versionSet?

/-- The arguments of the text of an event, when it is a "can't completely
install" warning dialog: the mod name and the category. -/
def Event.unhandledWarning? : Event → Option (List String)
  | .warning title text =>
    if title = "Mod Organizer 2 can't completely install this OMOD." then some text.args
    else none
  | _ => none

/-- The "can't completely install" warning dialogs of a trace, in order. -/
def unhandledWarnings (t : List Event) : List (List String) :=
  t.filterMap Event.unhandledWarning?

/-- The arguments of an event, when it is a line logged at warning level. -/
def Event.warnLine? : Event → Option (List String)
  | .log .warn _ args => some args
  | _ => none

/-- The lines logged at warning level, in order. -/
def warnLines (t : List Event) : List (List String) :=
  t.filterMap Event.warnLine?

/-! ## The ini decisions, stated on the answers alone -/

/-- The first `i` prompts were each answered Yes or No: when the loop comes
to edit `i` (counted from 0) nothing is settled yet, so edit `i` gets a
prompt of its own and `answers i` is the answer to it. -/
def undecided (answers : Nat → StandardButton) (i : Nat) : Prop :=
  ∀ k, k < i → (answers k = StandardButton.Yes ∨ answers k = StandardButton.No)

/-- YesToAll was answered at the prompt of an edit before edit `i`. -/
def yesToAllBefore (answers : Nat → StandardButton) (i : Nat) : Prop :=
  ∃ j, j < i ∧ undecided answers j ∧ answers j = StandardButton.YesToAll

/-- NoToAll was answered at the prompt of an edit before edit `i`: the loop
does not reach edit `i`. -/
def noToAllBefore (answers : Nat → StandardButton) (i : Nat) : Prop :=
  ∃ j, j < i ∧ undecided answers j ∧ answers j = StandardButton.NoToAll

/-- The condition under which edit `i` is written: the loop reaches it, and
the answer to its own prompt is Yes or YesToAll or YesToAll was answered for
an earlier edit. -/
def writtenSpec (answers : Nat → StandardButton) (i : Nat) : Prop :=
  ¬ noToAllBefore answers i ∧
    (answers i = StandardButton.Yes ∨ answers i = StandardButton.YesToAll ∨
      yesToAllBefore answers i)

instance (answers : Nat → StandardButton) (i : Nat) : Decidable (undecided answers i) :=
  Nat.decidableBallLT i _

instance (answers : Nat → StandardButton) (i : Nat) : Decidable (yesToAllBefore answers i) :=
  Nat.decidableExistsLT i

instance (answers : Nat → StandardButton) (i : Nat) : Decidable (noToAllBefore answers i) :=
  Nat.decidableExistsLT i

instance (answers : Nat → StandardButton) (i : Nat) : Decidable (writtenSpec answers i) :=
  inferInstanceAs (Decidable (_ ∧ _))

/-! ## Points of a call -/

/-- The world when control reaches line 97 in a call whose archive opened:
the settings are initialised, the host was asked for the mod and the readme
was offered. -/
def atLine97 (P : Platform σ) (H : Host) (U : User) (omod : OMOD) (modName : GuessedValue)
    (archiveName : String) (settings : Settings) (ini : σ) : World σ :=
  let template := P.Combine (P.GetPathRoot H.modsPath) "OMODTempXXXXXX"
  let w : World σ :=
    { ini := ini, settings := initFrameworkSettings P H (P.temporaryDirPath template) settings,
      trace := [.temporaryDir template], asked := 0 }
  let w := w.emit (.log .debug "Installing \x7b\x7d as OMOD" [archiveName])
  let w := w.emit (.openArchive archiveName)
  let w := w.emit (.createMod (guessedName H omod modName))
  displayReadme U omod w

/-- The world when the script has returned, in a call that runs it. -/
def atLine102 (P : Platform σ) (H : Host) (U : User) (omod : OMOD) (modName : GuessedValue)
    (archiveName : String) (settings : Settings) (ini : σ) : World σ :=
  ((atLine97 P H U omod modName archiveName settings ini).emit
    (.log .debug "Mod has script. Run it." [])).emit .runScript

/-- The old value named by an event, when it is the debug line of line 129
(its fourth argument). -/
def Event.oldValueLogged? : Event → Option String
  | .log .debug format args =>
    if format = "OMOD wants to set [\x7b\x7d] \x7b\x7d to \"\x7b\x7d\", was \"\x7b\x7d\"" then
      args.get? 3
    else none
  | _ => none

/-- The old values named by the debug lines of line 129, in order. -/
def oldValuesLogged (t : List Event) : List String :=
  t.filterMap Event.oldValueLogged?

/-! ## The unhandled categories, stated on the script result alone -/

/-- The unhandled categories of a script result with their collections, in
the order in which lines 206-215 name them. -/
def unhandledCategories (scriptData : ScriptReturnData) : List (String × Option Collection) :=
  [("ESPDeactivation", scriptData.ESPDeactivation),
   ("EarlyPlugins", scriptData.EarlyPlugins),
   ("LoadOrderSet", scriptData.LoadOrderSet),
   ("ConflictsWith", scriptData.ConflictsWith),
   ("DependsOn", scriptData.DependsOn),
   ("RegisterBSASet", scriptData.RegisterBSASet),
   ("SDPEdits", scriptData.SDPEdits),
   ("ESPEdits", scriptData.ESPEdits),
   ("PatchFiles", scriptData.PatchFiles)]

/-- A collection is non-null and its count is not zero. -/
def hasEntries : Option Collection → Bool
  | some c => decide (c.Count ≠ 0)
  | none => false

/-- Every file copy of a script result succeeds: neither the creation of the
destination directory nor the copy throws. -/
def copiesSucceed {σ : Type} (P : Platform σ) (modPath : String) (files : List InstallFile) :
    Prop :=
  ∀ file, file ∈ files →
    P.CreateDirectory (P.GetDirectoryName (P.Combine modPath file.InstallTo)) = .ok () ∧
    P.FileCopy file.InstallFrom (P.Combine modPath file.InstallTo) = .ok ()

/-! ## The installed plugins, stated on the script result alone -/

/-- A folding of characters keeps the dot and the separators of a path apart
from all other characters. -/
def keepsSeparators (fold : Char → Char) : Prop :=
  ∀ c, (fold c = '.' ↔ c = '.') ∧ (fold c = '/' ↔ c = '/') ∧
    (fold c = Char.ofNat 92 ↔ c = Char.ofNat 92) ∧ (fold c = ':' ↔ c = ':')

/-! ## A small concrete environment -/

namespace Demo

/-- Ini files as a list of (path, section, key, value), latest first. -/
abbrev Ini := List (String × String × String × String)

/-- A comparer that holds two strings equal when a folding of the characters
makes them the same. -/
def sameAfter (fold : Char → Char) (a b : String) : Bool :=
  decide (a.data.map fold = b.data.map fold)

/-- A platform over `Ini` in which no file operation fails and strings are
compared up to the case of the letters A-Z. -/
def platform : Platform Ini where
  Combine a b := a ++ "/" ++ b
  GetDirectoryName a := a
  GetPathRoot _ := "C:"
  absoluteFilePath d f := d ++ "/" ++ f
  temporaryDirPath t := t
  profileLookup ini path s k :=
    (ini.find? (fun e => decide (e.1 = path ∧ e.2.1 = s ∧ e.2.2.1 = k))).map (fun e => e.2.2.2)
  WriteRegistryValue ini s k v path := (path, s, k, v) :: ini
  CreateDirectory _ := .ok ()
  FileCopy _ _ := .ok ()
  shellMove _ _ := true
  equalsIgnoreCase := sameAfter Char.toLower

/-- A mod container. -/
def modInterface : IModInterface := { absolutePath := "mods/M" }

/-- A host that creates the mod. -/
def host : Host where
  modsPath := "mods"
  createMod g := (g, some modInterface)
  update _ v q := { value := v, quality := q }
  localSettingsEnabled := false
  profileAbsolutePath := "profile"
  documentsDirectory := "docs"
  gameDirectory := "game"
  omodLoggingLevel := 0

/-- A host that declines to create the mod. -/
def decliningHost : Host := { host with createMod := fun g => (g, none) }

/-- An archive with a script. -/
def omod : OMOD where
  ModName := some "M"
  HasReadme := false
  GetReadme := ""
  HasScript := true
  MajorVersion := 1
  MinorVersion := -1
  BuildVersion := 0
  GetDataFiles := some "data"
  GetPlugins := some "plugins"

/-- Three ini edits, none with an old value. -/
def edits : List INIEditInfo :=
  [ { Section := "[General]", Name := "a", NewValue := "1", OldValue := none },
    { Section := "[General]", Name := "b", NewValue := "2", OldValue := some "0" },
    { Section := "[Display]", Name := "c", NewValue := "3", OldValue := none } ]

/-- A script result with ini edits, two plugins (one unchecked), a text file
and two unhandled categories. -/
def scriptData : ScriptReturnData where
  CancelInstall := false
  INIEdits := some edits
  InstallFiles :=
    [ { InstallFrom := "t/a", InstallTo := "A.esp" },
      { InstallFrom := "t/b", InstallTo := "b.ESM" },
      { InstallFrom := "t/c", InstallTo := "c.txt" } ]
  UncheckedPlugins := some ["a.ESP"]
  ESPDeactivation := none
  EarlyPlugins := some ⟨2⟩
  LoadOrderSet := some ⟨0⟩
  ConflictsWith := none
  DependsOn := none
  RegisterBSASet := none
  SDPEdits := none
  ESPEdits := none
  PatchFiles := some ⟨1⟩

/-- The same script result with the cancel flag set. -/
def cancelledData : ScriptReturnData := { scriptData with CancelInstall := true }

/-- A framework whose script returns `scriptData`. -/
def framework : Framework where
  omod := .ok omod
  RunScript := .ok (some scriptData)
  Pretty sd _ _ _ := sd

/-- A framework whose script cancels. -/
def cancellingFramework : Framework := { framework with RunScript := .ok (some cancelledData) }

/-- A user who answers Yes, then NoToAll. -/
def user : User where
  displayReadme := .No
  updateINI k := if k = 0 then .Yes else .NoToAll

/-- A user who answers No, then YesToAll. -/
def yesToAllUser : User where
  displayReadme := .No
  updateINI k := if k = 0 then .No else .YesToAll

/-- A user who answers Yes to everything. -/
def yesUser : User where
  displayReadme := .No
  updateINI _ := .Yes

/-- The settings before the call. -/
def settings : Settings where
  TempPath := ""
  DllPath := "fw/OMODFramework.dll"
  LoggingSettings := { UseLogger := false, LogToFile := true, LowestLoggingLevel := 0 }
  ScriptExecutionSettings := none

/-- The name the host proposes. -/
def modName : GuessedValue := { value := "archive", quality := .GUESS_FALLBACK }

/-- A script result in which every unhandled category has entries. -/
def fullData : ScriptReturnData :=
  { scriptData with
    ESPDeactivation := some ⟨1⟩
    EarlyPlugins := some ⟨1⟩
    LoadOrderSet := some ⟨1⟩
    ConflictsWith := some ⟨1⟩
    DependsOn := some ⟨1⟩
    RegisterBSASet := some ⟨1⟩
    SDPEdits := some ⟨1⟩
    ESPEdits := some ⟨1⟩
    PatchFiles := some ⟨1⟩ }

/-- A framework whose script returns `fullData`. -/
def fullFramework : Framework := { framework with RunScript := .ok (some fullData) }

end Demo

/-! ## Traces only grow -/

@[simp] theorem emit_trace (w : World σ) (e : Event) : (w.emit e).trace = w.trace ++ [e] := rfl

@[simp] theorem emit_ini (w : World σ) (e : Event) : (w.emit e).ini = w.ini := rfl

@[simp] theorem emit_asked (w : World σ) (e : Event) : (w.emit e).asked = w.asked := rfl

theorem displayReadme_ini (U : User) (omod : OMOD) (w : World σ) :
    (displayReadme U omod w).ini = w.ini ∧ (displayReadme U omod w).asked = w.asked := by
  unfold displayReadme
  split
  · split <;> simp
  · simp

theorem displayReadme_filterMap {α : Type} (f : Event → Option α) (U : User) (omod : OMOD)
    (w : World σ) (hq : ∀ x, f (.question "Display Readme?" x) = none)
    (hp : ∀ r x, f (.readmePopup r x) = none) :
    (displayReadme U omod w).trace.filterMap f = w.trace.filterMap f := by
  unfold displayReadme
  split
  · split <;> simp [List.filterMap_append, hq, hp]
  · simp

theorem copyInstallFiles_filterMap {α : Type} (f : Event → Option α) (P : Platform σ)
    (modPath : String) (hd : ∀ x, f (.createDirectory x) = none)
    (hc : ∀ x y, f (.fileCopy x y) = none) (files : List InstallFile) :
    ∀ (set : List String) (w : World σ),
      (copyInstallFiles P modPath files set w).1.trace.filterMap f = w.trace.filterMap f := by
  induction files with
  | nil => intro set w; rfl
  | cons file rest ih =>
    intro set w
    simp only [copyInstallFiles]
    split
    · simp [List.filterMap_append, hd]
    · split
      · simp [List.filterMap_append, hd, hc]
      · rw [ih]; simp [List.filterMap_append, hd, hc]

theorem warnUncheckedPlugins_filterMap {α : Type} (f : Event → Option α) (omod : OMOD)
    (installedPlugins : List String) (unchecked : Option (List String)) (w : World σ)
    (hi : ∀ t x, f (.information t x) = none) :
    (warnUncheckedPlugins omod installedPlugins unchecked w).trace.filterMap f
      = w.trace.filterMap f := by
  unfold warnUncheckedPlugins
  split
  · rfl
  · split <;> simp [List.filterMap_append, hi]

theorem warnUnhandled_filterMap {α : Type} (f : Event → Option α) (omod : OMOD)
    (archiveName : String) (hw : ∀ t x, f (.warning t x) = none)
    (hl : ∀ x y, f (.log .warn x y) = none) (m : List (String × Nat)) :
    ∀ w : World σ, (warnUnhandled omod archiveName m w).trace.filterMap f = w.trace.filterMap f := by
  induction m with
  | nil => intro w; rfl
  | cons p rest ih =>
    intro w
    simp only [warnUnhandled]
    rw [ih]
    split <;> simp [List.filterMap_append, hw, hl]

theorem moveDirectory_filterMap {α : Type} (f : Event → Option α) (P : Platform σ)
    (modInterface : IModInterface) (directory : Option String) (done failed : String)
    (w : World σ) (hm : ∀ x y, f (.shellMove x y) = none)
    (hl : ∀ l x y, f (.log l x y) = none) (hr : ∀ x, f (.fileRemove x) = none) :
    (moveDirectory P modInterface directory done failed w).trace.filterMap f
      = w.trace.filterMap f := by
  unfold moveDirectory
  split
  · rfl
  · simp only [emit_trace]
    split <;> simp [List.filterMap_append, hm, hl, hr]

theorem installWithoutScript_filterMap {α : Type} (f : Event → Option α) (P : Platform σ)
    (omod : OMOD) (modInterface : IModInterface) (w : World σ)
    (hm : ∀ x y, f (.shellMove x y) = none)
    (hl : ∀ l x y, f (.log l x y) = none) (hr : ∀ x, f (.fileRemove x) = none) :
    (installWithoutScript P omod modInterface w).trace.filterMap f = w.trace.filterMap f := by
  unfold installWithoutScript
  rw [moveDirectory_filterMap f P _ _ _ _ _ hm hl hr, moveDirectory_filterMap f P _ _ _ _ _ hm hl hr]
  simp [List.filterMap_append, hl]

/-! ## One iteration of the ini loop -/

theorem iniEdit_filterMap {α : Type} (f : Event → Option α) (P : Platform σ) (U : User)
    (modName path : String) (edit : INIEditInfo) (yesToAll : Bool) (w : World σ)
    (hg : ∀ x y z, f (.getPrivateProfileString x y z) = none)
    (hl : ∀ x y, f (.log .debug x y) = none)
    (hq : ∀ x, f (.question "Update INI?" x) = none)
    (hw : ∀ x y z p, f (.writeRegistryValue x y z p) = none) :
    (iniEdit P U modName path edit yesToAll w).world.trace.filterMap f = w.trace.filterMap f := by
  unfold iniEdit doEdit
  cases edit.OldValue <;> cases yesToAll <;> simp only [] <;>
    split_ifs <;> simp [List.filterMap_append, hg, hl, hq, hw]

theorem iniEditLoop_filterMap {α : Type} (f : Event → Option α) (P : Platform σ) (U : User)
    (modName path : String)
    (hg : ∀ x y z, f (.getPrivateProfileString x y z) = none)
    (hl : ∀ x y, f (.log .debug x y) = none)
    (hq : ∀ x, f (.question "Update INI?" x) = none)
    (hw : ∀ x y z p, f (.writeRegistryValue x y z p) = none) (edits : List INIEditInfo) :
    ∀ (yesToAll : Bool) (w : World σ),
      (iniEditLoop P U modName path edits yesToAll w).trace.filterMap f = w.trace.filterMap f := by
  induction edits with
  | nil => intro _ w; rfl
  | cons edit rest ih =>
    intro yesToAll w
    simp only [iniEditLoop]
    split
    · exact iniEdit_filterMap f P U modName path edit yesToAll w hg hl hq hw
    · rw [ih]; exact iniEdit_filterMap f P U modName path edit yesToAll w hg hl hq hw

theorem applyINIEdits_filterMap {α : Type} (f : Event → Option α) (P : Platform σ) (H : Host)
    (U : User) (modName : String) (scriptData : ScriptReturnData) (w : World σ)
    (hg : ∀ x y z, f (.getPrivateProfileString x y z) = none)
    (hl : ∀ x y, f (.log .debug x y) = none)
    (hq : ∀ x, f (.question "Update INI?" x) = none)
    (hw : ∀ x y z p, f (.writeRegistryValue x y z p) = none) :
    (applyINIEdits P H U modName scriptData w).trace.filterMap f = w.trace.filterMap f := by
  unfold applyINIEdits
  split
  · rfl
  · split
    · exact iniEditLoop_filterMap f P U modName _ hg hl hq hw _ _ _
    · rfl

/-- With `yesToAll` set, an iteration writes its edit and asks nothing. -/
theorem iniEdit_yesToAll (P : Platform σ) (U : User) (modName path : String)
    (edit : INIEditInfo) (w : World σ) :
    (iniEdit P U modName path edit true w).stop = false ∧
    (iniEdit P U modName path edit true w).yesToAll = true ∧
    (iniEdit P U modName path edit true w).world.asked = w.asked ∧
    iniWrites (iniEdit P U modName path edit true w).world.trace
      = iniWrites w.trace ++ [requestOf edit] ∧
    iniPromptTexts (iniEdit P U modName path edit true w).world.trace = iniPromptTexts w.trace := by
  unfold iniEdit doEdit iniWrites iniPromptTexts requestOf
  cases edit.OldValue <;>
    simp [List.filterMap_append, Event.iniWrite?, Event.iniPrompt?]

/-- Without `yesToAll`, an iteration asks once; what follows depends on the
answer. -/
theorem iniEdit_ask (P : Platform σ) (U : User) (modName path : String)
    (edit : INIEditInfo) (w : World σ) :
    (iniEdit P U modName path edit false w).world.asked = w.asked + 1 ∧
    iniPrompts (iniEdit P U modName path edit false w).world.trace
      = iniPrompts w.trace ++ [some (requestOf edit)] ∧
    ((iniEdit P U modName path edit false w).stop = true ↔
      U.updateINI w.asked = StandardButton.NoToAll) ∧
    ((iniEdit P U modName path edit false w).yesToAll = true ↔
      U.updateINI w.asked = StandardButton.YesToAll) ∧
    iniWrites (iniEdit P U modName path edit false w).world.trace
      = iniWrites w.trace ++
        (if U.updateINI w.asked = StandardButton.Yes ∨ U.updateINI w.asked = StandardButton.YesToAll
          then [requestOf edit] else []) := by
  unfold iniEdit doEdit iniWrites iniPrompts iniPromptTexts requestOf
  cases edit.OldValue <;> cases h : U.updateINI w.asked <;>
    simp [List.filterMap_append, Event.iniWrite?, Event.iniPrompt?, h] <;>
    split_ifs <;> simp [promptRequest]

/-! ## The ini loop -/

theorem undecided_succ {answers : Nat → StandardButton} {n : Nat} (h : undecided answers n)
    (hn : answers n = StandardButton.Yes ∨ answers n = StandardButton.No) :
    undecided answers (n + 1) := by
  intro k hk
  rcases Nat.lt_succ_iff_lt_or_eq.mp hk with h1 | h1
  · exact h k h1
  · subst h1; exact hn

theorem not_undecided_of_lt (answers : Nat → StandardButton) (n i : Nat) (hi : n < i)
    (hn : ¬ (answers n = StandardButton.Yes ∨ answers n = StandardButton.No)) :
    ¬ undecided answers i := fun h => hn (h n hi)

theorem not_noToAllBefore_of_undecided {answers : Nat → StandardButton} {n : Nat}
    (h : undecided answers n) : ¬ noToAllBefore answers n := by
  rintro ⟨j, hj, _, hno⟩
  rcases h j hj with h1 | h1 <;> rw [h1] at hno <;> cases hno

theorem not_yesToAllBefore_of_undecided {answers : Nat → StandardButton} {n : Nat}
    (h : undecided answers n) : ¬ yesToAllBefore answers n := by
  rintro ⟨j, hj, _, hno⟩
  rcases h j hj with h1 | h1 <;> rw [h1] at hno <;> cases hno

theorem writtenSpec_of_undecided {answers : Nat → StandardButton} {n : Nat}
    (h : undecided answers n) :
    writtenSpec answers n ↔
      (answers n = StandardButton.Yes ∨ answers n = StandardButton.YesToAll) := by
  unfold writtenSpec
  constructor
  · rintro ⟨_, h1 | h1 | h1⟩
    · exact Or.inl h1
    · exact Or.inr h1
    · exact absurd h1 (not_yesToAllBefore_of_undecided h)
  · rintro (h1 | h1)
    · exact ⟨not_noToAllBefore_of_undecided h, Or.inl h1⟩
    · exact ⟨not_noToAllBefore_of_undecided h, Or.inr (Or.inl h1)⟩

theorem writtenSpec_after_yesToAll {answers : Nat → StandardButton} {n i : Nat}
    (h : undecided answers n) (hn : answers n = StandardButton.YesToAll) (hi : n < i) :
    writtenSpec answers i := by
  refine ⟨?_, Or.inr (Or.inr ⟨n, hi, h, hn⟩)⟩
  rintro ⟨j, _, hj, hno⟩
  rcases Nat.lt_trichotomy j n with h1 | h1 | h1
  · rcases h j h1 with h2 | h2 <;> rw [h2] at hno <;> cases hno
  · subst h1; rw [hn] at hno; cases hno
  · rcases hj n h1 with h2 | h2 <;> rw [h2] at hn <;> cases hn

theorem not_writtenSpec_after_noToAll {answers : Nat → StandardButton} {n i : Nat}
    (h : undecided answers n) (hn : answers n = StandardButton.NoToAll) (hi : n < i) :
    ¬ writtenSpec answers i := fun hw => hw.1 ⟨n, hi, h, hn⟩

theorem map_snd_enumFrom {α β : Type} (f : α → β) (l : List α) :
    ∀ n, (l.enumFrom n).map (fun p => f p.2) = l.map f := by
  induction l with
  | nil => intro n; rfl
  | cons a t ih => intro n; simp [List.enumFrom_cons, ih]

/-- Once `yesToAll` is set, the loop writes every remaining edit and asks
nothing. -/
theorem iniEditLoop_yesToAll (P : Platform σ) (U : User) (modName path : String)
    (edits : List INIEditInfo) :
    ∀ w : World σ,
      iniWrites (iniEditLoop P U modName path edits true w).trace
        = iniWrites w.trace ++ edits.map requestOf ∧
      iniPromptTexts (iniEditLoop P U modName path edits true w).trace
        = iniPromptTexts w.trace := by
  induction edits with
  | nil => intro w; simp [iniEditLoop]
  | cons edit rest ih =>
    intro w
    obtain ⟨h1, h2, _, h4, h5⟩ := iniEdit_yesToAll P U modName path edit w
    simp only [iniEditLoop, h1, h2]
    obtain ⟨i1, i2⟩ := ih (iniEdit P U modName path edit true w).world
    simp [i1, i2, h4, h5]

/-- The writes and prompts of the loop, started with nothing settled, are
those the answers prescribe. -/
theorem iniEditLoop_spec (P : Platform σ) (U : User) (modName path : String)
    (edits : List INIEditInfo) :
    ∀ w : World σ, undecided U.updateINI w.asked →
      iniWrites (iniEditLoop P U modName path edits false w).trace
        = iniWrites w.trace ++
          ((edits.enumFrom w.asked).filter
            (fun p => decide (writtenSpec U.updateINI p.1))).map (fun p => requestOf p.2) ∧
      iniPrompts (iniEditLoop P U modName path edits false w).trace
        = iniPrompts w.trace ++
          ((edits.enumFrom w.asked).filter
            (fun p => decide (undecided U.updateINI p.1))).map (fun p => some (requestOf p.2)) := by
  induction edits with
  | nil => intro w _; simp [iniEditLoop]
  | cons edit rest ih =>
    intro w hw
    obtain ⟨h1, h2, h3, h4, h5⟩ := iniEdit_ask P U modName path edit w
    simp only [iniEditLoop, List.enumFrom_cons]
    rcases hans : U.updateINI w.asked with _ | _ | _ | _
    · -- Yes
      have hs : (iniEdit P U modName path edit false w).stop = false := by
        simpa [hans] using h3
      have hy : (iniEdit P U modName path edit false w).yesToAll = false := by
        simpa [hans] using h4
      have hu : undecided U.updateINI (iniEdit P U modName path edit false w).world.asked := by
        rw [h1]; exact undecided_succ hw (Or.inl hans)
      obtain ⟨i1, i2⟩ := ih _ hu
      have hwn : writtenSpec U.updateINI w.asked :=
        (writtenSpec_of_undecided hw).mpr (Or.inl hans)
      simp [hs, hy, i1, i2, h1, h2, h5, hans, hwn, hw, List.filter_cons]
    · -- No
      have hs : (iniEdit P U modName path edit false w).stop = false := by
        simpa [hans] using h3
      have hy : (iniEdit P U modName path edit false w).yesToAll = false := by
        simpa [hans] using h4
      have hu : undecided U.updateINI (iniEdit P U modName path edit false w).world.asked := by
        rw [h1]; exact undecided_succ hw (Or.inr hans)
      obtain ⟨i1, i2⟩ := ih _ hu
      have hwn : ¬ writtenSpec U.updateINI w.asked := by
        rw [writtenSpec_of_undecided hw, hans]; simp
      simp [hs, hy, i1, i2, h1, h2, h5, hans, hwn, hw, List.filter_cons]
    · -- YesToAll
      have hs : (iniEdit P U modName path edit false w).stop = false := by
        simpa [hans] using h3
      have hy : (iniEdit P U modName path edit false w).yesToAll = true := by
        simpa [hans] using h4
      obtain ⟨i1, i2⟩ := iniEditLoop_yesToAll P U modName path rest
        (iniEdit P U modName path edit false w).world
      have hwn : writtenSpec U.updateINI w.asked :=
        (writtenSpec_of_undecided hw).mpr (Or.inr hans)
      have hf1 : (rest.enumFrom (w.asked + 1)).filter
          (fun p => decide (writtenSpec U.updateINI p.1)) = rest.enumFrom (w.asked + 1) := by
        rw [List.filter_eq_self]
        intro p hp
        have := List.le_fst_of_mem_enumFrom hp
        simpa using writtenSpec_after_yesToAll hw hans (by omega)
      have hf2 : (rest.enumFrom (w.asked + 1)).filter
          (fun p => decide (undecided U.updateINI p.1)) = [] := by
        rw [List.filter_eq_nil_iff]
        intro p hp
        have := List.le_fst_of_mem_enumFrom hp
        simpa using not_undecided_of_lt U.updateINI w.asked p.1
          (by omega) (by rw [hans]; simp)
      have hm := map_snd_enumFrom requestOf rest (w.asked + 1)
      simp [hs, hy, i1, iniPrompts, i2, h5, hans, hwn, hw, List.filter_cons, hf1, hf2, hm]
      simpa [iniPrompts] using h2
    · -- NoToAll
      have hs : (iniEdit P U modName path edit false w).stop = true := by
        simpa [hans] using h3
      have hwn : ¬ writtenSpec U.updateINI w.asked := by
        rw [writtenSpec_of_undecided hw, hans]; simp
      have hf1 : (rest.enumFrom (w.asked + 1)).filter
          (fun p => decide (writtenSpec U.updateINI p.1)) = [] := by
        rw [List.filter_eq_nil_iff]
        intro p hp
        have := List.le_fst_of_mem_enumFrom hp
        simpa using not_writtenSpec_after_noToAll hw hans (by omega)
      have hf2 : (rest.enumFrom (w.asked + 1)).filter
          (fun p => decide (undecided U.updateINI p.1)) = [] := by
        rw [List.filter_eq_nil_iff]
        intro p hp
        have := List.le_fst_of_mem_enumFrom hp
        simpa using not_undecided_of_lt U.updateINI w.asked p.1
          (by omega) (by rw [hans]; simp)
      simp [hs, h2, h5, hans, hwn, hw, List.filter_cons, hf1, hf2]

/-! ## The script branch as a whole -/

/-- An observation that ignores what the script branch does after the ini
edits sees, of a run that was not cancelled, only the ini edits. -/
theorem installWithScript_filterMap {α : Type} (f : Event → Option α) (P : Platform σ)
    (H : Host) (F : Framework) (U : User) (omod : OMOD) (modName : GuessedValue)
    (modInterface : IModInterface) (archiveName : String) (w : World σ)
    (scriptData : ScriptReturnData)
    (hrun : F.RunScript = .ok (some scriptData)) (hnc : scriptData.CancelInstall = false)
    (hp : f .pretty = none) (hd : ∀ x, f (.createDirectory x) = none)
    (hc : ∀ x y, f (.fileCopy x y) = none) (hi : ∀ t x, f (.information t x) = none)
    (hw : ∀ t x, f (.warning t x) = none) (hl : ∀ x y, f (.log .warn x y) = none) :
    (installWithScript P H F U omod modName modInterface archiveName w).1.trace.filterMap f
      = (applyINIEdits P H U modName.value scriptData
          ((w.emit (.log .debug "Mod has script. Run it." [])).emit .runScript)).trace.filterMap f := by
  unfold installWithScript
  simp only [hrun, hnc, Bool.false_eq_true, if_false]
  have hcopy := copyInstallFiles_filterMap f P modInterface.absolutePath hd hc
    (F.Pretty scriptData omod omod.GetDataFiles omod.GetPlugins).InstallFiles []
    ((applyINIEdits P H U modName.value scriptData
      ((w.emit (.log .debug "Mod has script. Run it." [])).emit .runScript)).emit .pretty)
  split
  · rename_i heq
    rw [heq] at hcopy
    simpa [List.filterMap_append, hp] using hcopy
  · rename_i heq
    rw [heq] at hcopy
    rw [warnUnhandled_filterMap f _ _ hw hl, warnUncheckedPlugins_filterMap f _ _ _ _ hi]
    simpa [List.filterMap_append, hp] using hcopy

/-! ## install, path by path -/

theorem install_of_open_error (P : Platform σ) (H : Host) (F : Framework) (U : User)
    (modName : GuessedValue) (gameName archiveName version : String) (nexusID : Int)
    (settings : Settings) (ini : σ) (what : String) (hopen : F.omod = .error what) :
    (install P H F U modName gameName archiveName version nexusID settings ini).2 = .thrown what ∧
    (install P H F U modName gameName archiveName version nexusID settings ini).1.ini = ini ∧
    (install P H F U modName gameName archiveName version nexusID settings ini).1.trace
      = [.temporaryDir (P.Combine (P.GetPathRoot H.modsPath) "OMODTempXXXXXX"),
          .log .debug "Installing \x7b\x7d as OMOD" [archiveName], .openArchive archiveName,
          .temporaryDirRemoved
            (P.temporaryDirPath (P.Combine (P.GetPathRoot H.modsPath) "OMODTempXXXXXX"))] := by
  simp [install, installBody, hopen, World.emit]

theorem install_of_no_mod (P : Platform σ) (H : Host) (F : Framework) (U : User)
    (modName : GuessedValue) (gameName archiveName version : String) (nexusID : Int)
    (settings : Settings) (ini : σ) (omod : OMOD) (hopen : F.omod = .ok omod)
    (hmod : (H.createMod (guessedName H omod modName)).2 = none) :
    (install P H F U modName gameName archiveName version nexusID settings ini).2
      = .returned .RESULT_CANCELED ∧
    (install P H F U modName gameName archiveName version nexusID settings ini).1.ini = ini ∧
    (install P H F U modName gameName archiveName version nexusID settings ini).1.trace
      = [.temporaryDir (P.Combine (P.GetPathRoot H.modsPath) "OMODTempXXXXXX"),
          .log .debug "Installing \x7b\x7d as OMOD" [archiveName], .openArchive archiveName,
          .createMod (guessedName H omod modName),
          .temporaryDirRemoved
            (P.temporaryDirPath (P.Combine (P.GetPathRoot H.modsPath) "OMODTempXXXXXX"))] := by
  simp [install, installBody, hopen, hmod, World.emit]

theorem install_of_mod (P : Platform σ) (H : Host) (F : Framework) (U : User)
    (modName : GuessedValue) (gameName archiveName version : String) (nexusID : Int)
    (settings : Settings) (ini : σ) (omod : OMOD) (modInterface : IModInterface)
    (hopen : F.omod = .ok omod)
    (hmod : (H.createMod (guessedName H omod modName)).2 = some modInterface) :
    install P H F U modName gameName archiveName version nexusID settings ini
      = (match (installContents P H F U omod (H.createMod (guessedName H omod modName)).1
            modInterface archiveName (atLine97 P H U omod modName archiveName settings ini)).2 with
        | some outcome =>
          ((installContents P H F U omod (H.createMod (guessedName H omod modName)).1
            modInterface archiveName
            (atLine97 P H U omod modName archiveName settings ini)).1.emit
            (.temporaryDirRemoved
              (P.temporaryDirPath (P.Combine (P.GetPathRoot H.modsPath) "OMODTempXXXXXX"))),
            outcome)
        | none =>
          (((installContents P H F U omod (H.createMod (guessedName H omod modName)).1
            modInterface archiveName
            (atLine97 P H U omod modName archiveName settings ini)).1.emit
              (.setVersion (max omod.MajorVersion 0) (max omod.MinorVersion 0)
                (max omod.BuildVersion 0))).emit
            (.temporaryDirRemoved
              (P.temporaryDirPath (P.Combine (P.GetPathRoot H.modsPath) "OMODTempXXXXXX"))),
            .returned .RESULT_SUCCESS)) := by
  simp only [install, installBody, hopen, hmod, atLine97]
  split <;> rename_i heq <;> simp only [World.emit, List.nil_append] at heq ⊢ <;> rw [heq]

theorem atLine97_facts (P : Platform σ) (H : Host) (U : User) (omod : OMOD)
    (modName : GuessedValue) (archiveName : String) (settings : Settings) (ini : σ) :
    (atLine97 P H U omod modName archiveName settings ini).ini = ini ∧
    (atLine97 P H U omod modName archiveName settings ini).asked = 0 := by
  unfold atLine97
  simp [(displayReadme_ini U omod _).1, (displayReadme_ini U omod _).2]

theorem atLine97_filterMap {α : Type} (f : Event → Option α) (P : Platform σ) (H : Host)
    (U : User) (omod : OMOD) (modName : GuessedValue) (archiveName : String)
    (settings : Settings) (ini : σ)
    (ht : ∀ x, f (.temporaryDir x) = none) (hl : ∀ x y, f (.log .debug x y) = none)
    (ho : ∀ x, f (.openArchive x) = none) (hc : ∀ x, f (.createMod x) = none)
    (hq : ∀ x, f (.question "Display Readme?" x) = none)
    (hp : ∀ r x, f (.readmePopup r x) = none) :
    (atLine97 P H U omod modName archiveName settings ini).trace.filterMap f = [] := by
  unfold atLine97
  simp only []
  rw [displayReadme_filterMap f U omod _ hq hp]
  simp [List.filterMap_append, ht, hl, ho, hc, List.filterMap_cons]

/-- A cancelled script ends the call at once: nothing follows the run of the
script but the removal of the temporary directory. -/
theorem install_of_cancel (P : Platform σ) (H : Host) (F : Framework) (U : User)
    (modName : GuessedValue) (gameName archiveName version : String) (nexusID : Int)
    (settings : Settings) (ini : σ) (omod : OMOD) (modInterface : IModInterface)
    (scriptData : ScriptReturnData) (hopen : F.omod = .ok omod)
    (hmod : (H.createMod (guessedName H omod modName)).2 = some modInterface)
    (hscript : omod.HasScript = true) (hrun : F.RunScript = .ok (some scriptData))
    (hcancel : scriptData.CancelInstall = true) :
    (install P H F U modName gameName archiveName version nexusID settings ini).2
      = .returned .RESULT_CANCELED ∧
    (install P H F U modName gameName archiveName version nexusID settings ini).1.ini = ini ∧
    (install P H F U modName gameName archiveName version nexusID settings ini).1.trace
      = (atLine102 P H U omod modName archiveName settings ini).trace ++
          [.temporaryDirRemoved
            (P.temporaryDirPath (P.Combine (P.GetPathRoot H.modsPath) "OMODTempXXXXXX"))] := by
  rw [install_of_mod P H F U modName gameName archiveName version nexusID settings ini omod
    modInterface hopen hmod]
  simp [installContents, installWithScript, hscript, hrun, hcancel, atLine102,
    (atLine97_facts P H U omod modName archiveName settings ini).1]

theorem atLine102_filterMap {α : Type} (f : Event → Option α) (P : Platform σ) (H : Host)
    (U : User) (omod : OMOD) (modName : GuessedValue) (archiveName : String)
    (settings : Settings) (ini : σ)
    (ht : ∀ x, f (.temporaryDir x) = none) (hl : ∀ x y, f (.log .debug x y) = none)
    (ho : ∀ x, f (.openArchive x) = none) (hc : ∀ x, f (.createMod x) = none)
    (hq : ∀ x, f (.question "Display Readme?" x) = none)
    (hp : ∀ r x, f (.readmePopup r x) = none) (hr : f .runScript = none) :
    (atLine102 P H U omod modName archiveName settings ini).trace.filterMap f = [] := by
  unfold atLine102
  simp [List.filterMap_append, hl, hr, atLine97_filterMap f P H U omod modName archiveName
    settings ini ht hl ho hc hq hp]

/-- Whatever path the call takes, a script result that asks for cancellation
leaves the ini file unwritten. -/
theorem iniWrites_of_cancel (P : Platform σ) (H : Host) (F : Framework) (U : User)
    (modName : GuessedValue) (gameName archiveName version : String) (nexusID : Int)
    (settings : Settings) (ini : σ) (scriptData : ScriptReturnData)
    (hrun : F.RunScript = .ok (some scriptData)) (hcancel : scriptData.CancelInstall = true) :
    iniWrites (install P H F U modName gameName archiveName version nexusID settings ini).1.trace
      = [] := by
  cases hopen : F.omod with
  | error what =>
    rw [(install_of_open_error P H F U modName gameName archiveName version nexusID settings ini
      what hopen).2.2]
    rfl
  | ok omod =>
    cases hmod : (H.createMod (guessedName H omod modName)).2 with
    | none =>
      rw [(install_of_no_mod P H F U modName gameName archiveName version nexusID settings ini
        omod hopen hmod).2.2]
      rfl
    | some modInterface =>
      cases hscript : omod.HasScript with
      | true =>
        rw [(install_of_cancel P H F U modName gameName archiveName version nexusID settings ini
          omod modInterface scriptData hopen hmod hscript hrun hcancel).2.2]
        simp [iniWrites, List.filterMap_append, Event.iniWrite?,
          atLine102_filterMap Event.iniWrite? P H U omod modName archiveName settings ini
            (by intros; rfl) (by intros; rfl) (by intros; rfl) (by intros; rfl)
            (by intros; rfl) (by intros; rfl) rfl]
      | false =>
        rw [install_of_mod P H F U modName gameName archiveName version nexusID settings ini omod
          modInterface hopen hmod]
        simp [installContents, hscript, iniWrites, List.filterMap_append, Event.iniWrite?,
          installWithoutScript_filterMap Event.iniWrite? P omod modInterface _
            (by intros; rfl) (by intros; rfl) (by intros; rfl),
          atLine97_filterMap Event.iniWrite? P H U omod modName archiveName settings ini
            (by intros; rfl) (by intros; rfl) (by intros; rfl) (by intros; rfl)
            (by intros; rfl) (by intros; rfl)]

/-! ## Declined and cancelled installs -/

/-- C1: when the archive opens and the host's `createMod` returns no mod
container, `install` returns Canceled, and during the call no ini value is
written (the ini file is as before), no file is copied or moved into mod
storage, the script is not run and no mod version is set. -/
theorem install_canceled_when_no_mod (P : Platform σ) (H : Host) (F : Framework) (U : User)
    (modName : GuessedValue) (gameName archiveName version : String) (nexusID : Int)
    (settings : Settings) (ini : σ) (omod : OMOD) (hopen : F.omod = .ok omod)
    (hmod : (H.createMod (guessedName H omod modName)).2 = none) :
    (install P H F U modName gameName archiveName version nexusID settings ini).2
      = .returned .RESULT_CANCELED ∧
    iniWrites (install P H F U modName gameName archiveName version nexusID settings ini).1.trace
      = [] ∧
    (install P H F U modName gameName archiveName version nexusID settings ini).1.ini = ini ∧
    filesInstalled
      (install P H F U modName gameName archiveName version nexusID settings ini).1.trace = [] ∧
    scriptRuns (install P H F U modName gameName archiveName version nexusID settings ini).1.trace
      = 0 ∧
    versionsSet (install P H F U modName gameName archiveName version nexusID settings ini).1.trace
      = [] := by
  obtain ⟨h1, h2, h3⟩ := install_of_no_mod P H F U modName gameName archiveName version nexusID
    settings ini omod hopen hmod
  rw [h1, h2, h3]
  exact ⟨rfl, rfl, rfl, rfl, rfl, rfl⟩

/-- C1 at a host that declines to create the mod. -/
theorem install_canceled_when_no_mod_witness :
    (install Demo.platform Demo.decliningHost Demo.framework Demo.yesUser Demo.modName
        "Oblivion" "a.omod" "1" 0 Demo.settings []).2 = .returned .RESULT_CANCELED ∧
    iniWrites (install Demo.platform Demo.decliningHost Demo.framework Demo.yesUser Demo.modName
        "Oblivion" "a.omod" "1" 0 Demo.settings []).1.trace = [] ∧
    (install Demo.platform Demo.decliningHost Demo.framework Demo.yesUser Demo.modName
        "Oblivion" "a.omod" "1" 0 Demo.settings []).1.ini = [] ∧
    filesInstalled (install Demo.platform Demo.decliningHost Demo.framework Demo.yesUser
        Demo.modName "Oblivion" "a.omod" "1" 0 Demo.settings []).1.trace = [] ∧
    scriptRuns (install Demo.platform Demo.decliningHost Demo.framework Demo.yesUser Demo.modName
        "Oblivion" "a.omod" "1" 0 Demo.settings []).1.trace = 0 ∧
    versionsSet (install Demo.platform Demo.decliningHost Demo.framework Demo.yesUser Demo.modName
        "Oblivion" "a.omod" "1" 0 Demo.settings []).1.trace = [] :=
  install_canceled_when_no_mod Demo.platform Demo.decliningHost Demo.framework Demo.yesUser
    Demo.modName "Oblivion" "a.omod" "1" 0 Demo.settings [] Demo.omod rfl rfl

/-- C2: on the script path, when the script's result has `CancelInstall` set,
`install` returns Canceled, no file is copied (or moved) into the mod
container and no mod version is set. -/
theorem install_canceled_by_script (P : Platform σ) (H : Host) (F : Framework) (U : User)
    (modName : GuessedValue) (gameName archiveName version : String) (nexusID : Int)
    (settings : Settings) (ini : σ) (omod : OMOD) (modInterface : IModInterface)
    (scriptData : ScriptReturnData) (hopen : F.omod = .ok omod)
    (hmod : (H.createMod (guessedName H omod modName)).2 = some modInterface)
    (hscript : omod.HasScript = true) (hrun : F.RunScript = .ok (some scriptData))
    (hcancel : scriptData.CancelInstall = true) :
    (install P H F U modName gameName archiveName version nexusID settings ini).2
      = .returned .RESULT_CANCELED ∧
    filesInstalled
      (install P H F U modName gameName archiveName version nexusID settings ini).1.trace = [] ∧
    versionsSet (install P H F U modName gameName archiveName version nexusID settings ini).1.trace
      = [] := by
  obtain ⟨h1, _, h3⟩ := install_of_cancel P H F U modName gameName archiveName version nexusID
    settings ini omod modInterface scriptData hopen hmod hscript hrun hcancel
  rw [h1, h3]
  refine ⟨rfl, ?_, ?_⟩
  · simp [filesInstalled, List.filterMap_append, Event.fileInstalled?,
      atLine102_filterMap Event.fileInstalled? P H U omod modName archiveName settings ini
        (by intros; rfl) (by intros; rfl) (by intros; rfl) (by intros; rfl)
        (by intros; rfl) (by intros; rfl) rfl]
  · simp [versionsSet, List.filterMap_append, Event.versionSet?,
      atLine102_filterMap Event.versionSet? P H U omod modName archiveName settings ini
        (by intros; rfl) (by intros; rfl) (by intros; rfl) (by intros; rfl)
        (by intros; rfl) (by intros; rfl) rfl]

/-- C2 at a script that cancels, with three files listed for installation. -/
theorem install_canceled_by_script_witness :
    Demo.cancelledData.InstallFiles.length = 3 ∧
    (install Demo.platform Demo.host Demo.cancellingFramework Demo.yesUser Demo.modName
        "Oblivion" "a.omod" "1" 0 Demo.settings []).2 = .returned .RESULT_CANCELED ∧
    filesInstalled (install Demo.platform Demo.host Demo.cancellingFramework Demo.yesUser
        Demo.modName "Oblivion" "a.omod" "1" 0 Demo.settings []).1.trace = [] ∧
    versionsSet (install Demo.platform Demo.host Demo.cancellingFramework Demo.yesUser
        Demo.modName "Oblivion" "a.omod" "1" 0 Demo.settings []).1.trace = [] :=
  ⟨rfl, install_canceled_by_script Demo.platform Demo.host Demo.cancellingFramework Demo.yesUser
    Demo.modName "Oblivion" "a.omod" "1" 0 Demo.settings [] Demo.omod Demo.modInterface
    Demo.cancelledData rfl rfl rfl rfl rfl⟩

/-- C5, as stated, fails: there is no environment, script result signalling
cancellation and user for which `install` returns Canceled after having
written an ini edit. -/
theorem no_ini_write_before_cancel :
    ¬ ∃ (τ : Type) (P : Platform τ) (H : Host) (F : Framework) (U : User)
        (modName : GuessedValue) (gameName archiveName version : String) (nexusID : Int)
        (settings : Settings) (ini : τ) (scriptData : ScriptReturnData) (edit : INIEditInfo)
        (rest : List INIEditInfo),
      F.RunScript = .ok (some scriptData) ∧ scriptData.CancelInstall = true ∧
      scriptData.INIEdits = some (edit :: rest) ∧ U.updateINI 0 = StandardButton.Yes ∧
      (install P H F U modName gameName archiveName version nexusID settings ini).2
        = .returned .RESULT_CANCELED ∧
      requestOf edit ∈
        iniWrites (install P H F U modName gameName archiveName version nexusID settings ini).1.trace := by
  rintro ⟨τ, P, H, F, U, modName, gameName, archiveName, version, nexusID, settings, ini,
    scriptData, edit, rest, hrun, hcancel, _, _, _, hmem⟩
  rw [iniWrites_of_cancel P H F U modName gameName archiveName version nexusID settings ini
    scriptData hrun hcancel] at hmem
  cases hmem

/-- C5, amended: the script's cancellation is honoured before the ini edits.
On the script path, when the script's result has `CancelInstall` set,
`install` returns Canceled without having shown an "Update INI?" prompt or
written an ini edit, and the ini file is as it was before the call. -/
theorem cancel_precedes_ini_edits (P : Platform σ) (H : Host) (F : Framework) (U : User)
    (modName : GuessedValue) (gameName archiveName version : String) (nexusID : Int)
    (settings : Settings) (ini : σ) (omod : OMOD) (modInterface : IModInterface)
    (scriptData : ScriptReturnData) (hopen : F.omod = .ok omod)
    (hmod : (H.createMod (guessedName H omod modName)).2 = some modInterface)
    (hscript : omod.HasScript = true) (hrun : F.RunScript = .ok (some scriptData))
    (hcancel : scriptData.CancelInstall = true) :
    (install P H F U modName gameName archiveName version nexusID settings ini).2
      = .returned .RESULT_CANCELED ∧
    iniPromptTexts
      (install P H F U modName gameName archiveName version nexusID settings ini).1.trace = [] ∧
    iniWrites (install P H F U modName gameName archiveName version nexusID settings ini).1.trace
      = [] ∧
    (install P H F U modName gameName archiveName version nexusID settings ini).1.ini = ini := by
  obtain ⟨h1, h2, h3⟩ := install_of_cancel P H F U modName gameName archiveName version nexusID
    settings ini omod modInterface scriptData hopen hmod hscript hrun hcancel
  refine ⟨h1, ?_, iniWrites_of_cancel P H F U modName gameName archiveName version nexusID
    settings ini scriptData hrun hcancel, h2⟩
  rw [h3]
  simp [iniPromptTexts, List.filterMap_append, Event.iniPrompt?,
    atLine102_filterMap Event.iniPrompt? P H U omod modName archiveName settings ini
      (by intros; rfl) (by intros; rfl) (by intros; rfl) (by intros; rfl)
      (by intros; rfl) (by intros; rfl) rfl]

/-- C5 amended, at a script that cancels and carries three ini edits, with a
user who would answer Yes. -/
theorem cancel_precedes_ini_edits_witness :
    Demo.cancelledData.INIEdits = some Demo.edits ∧ Demo.yesUser.updateINI 0 = StandardButton.Yes ∧
    (install Demo.platform Demo.host Demo.cancellingFramework Demo.yesUser Demo.modName
        "Oblivion" "a.omod" "1" 0 Demo.settings []).2 = .returned .RESULT_CANCELED ∧
    iniPromptTexts (install Demo.platform Demo.host Demo.cancellingFramework Demo.yesUser
        Demo.modName "Oblivion" "a.omod" "1" 0 Demo.settings []).1.trace = [] ∧
    iniWrites (install Demo.platform Demo.host Demo.cancellingFramework Demo.yesUser
        Demo.modName "Oblivion" "a.omod" "1" 0 Demo.settings []).1.trace = [] ∧
    (install Demo.platform Demo.host Demo.cancellingFramework Demo.yesUser Demo.modName
        "Oblivion" "a.omod" "1" 0 Demo.settings []).1.ini = [] :=
  ⟨rfl, rfl, cancel_precedes_ini_edits Demo.platform Demo.host Demo.cancellingFramework
    Demo.yesUser Demo.modName "Oblivion" "a.omod" "1" 0 Demo.settings [] Demo.omod
    Demo.modInterface Demo.cancelledData rfl rfl rfl rfl rfl⟩

/-- The ini writes and prompts of a call that runs the script to an
uncancelled result are those of the ini loop on the edits of the result. -/
theorem install_ini_spec (P : Platform σ) (H : Host) (F : Framework) (U : User)
    (modName : GuessedValue) (gameName archiveName version : String) (nexusID : Int)
    (settings : Settings) (ini : σ) (omod : OMOD) (modInterface : IModInterface)
    (scriptData : ScriptReturnData) (edits : List INIEditInfo) (hopen : F.omod = .ok omod)
    (hmod : (H.createMod (guessedName H omod modName)).2 = some modInterface)
    (hscript : omod.HasScript = true) (hrun : F.RunScript = .ok (some scriptData))
    (hnc : scriptData.CancelInstall = false) (hedits : scriptData.INIEdits = some edits) :
    iniWrites (install P H F U modName gameName archiveName version nexusID settings ini).1.trace
      = ((edits.enum.filter (fun p => decide (writtenSpec U.updateINI p.1))).map
          (fun p => requestOf p.2)) ∧
    iniPrompts (install P H F U modName gameName archiveName version nexusID settings ini).1.trace
      = ((edits.enum.filter (fun p => decide (undecided U.updateINI p.1))).map
          (fun p => some (requestOf p.2))) := by
  have hw0 : iniWrites (atLine102 P H U omod modName archiveName settings ini).trace = [] :=
    atLine102_filterMap Event.iniWrite? P H U omod modName archiveName settings ini
      (by intros; rfl) (by intros; rfl) (by intros; rfl) (by intros; rfl)
      (by intros; rfl) (by intros; rfl) rfl
  have hp0 : iniPromptTexts (atLine102 P H U omod modName archiveName settings ini).trace = [] :=
    atLine102_filterMap Event.iniPrompt? P H U omod modName archiveName settings ini
      (by intros; rfl) (by intros; rfl) (by intros; rfl) (by intros; rfl)
      (by intros; rfl) (by intros; rfl) rfl
  have hasked : (atLine102 P H U omod modName archiveName settings ini).asked = 0 := by
    simp [atLine102, (atLine97_facts P H U omod modName archiveName settings ini).2]
  have hund : undecided U.updateINI (atLine102 P H U omod modName archiveName settings ini).asked := by
    rw [hasked]; intro k hk; omega
  -- the loop itself
  have hloop :
      iniWrites (applyINIEdits P H U (H.createMod (guessedName H omod modName)).1.value scriptData
          (atLine102 P H U omod modName archiveName settings ini)).trace
        = ((edits.enum.filter (fun p => decide (writtenSpec U.updateINI p.1))).map
            (fun p => requestOf p.2)) ∧
      iniPrompts (applyINIEdits P H U (H.createMod (guessedName H omod modName)).1.value
          scriptData (atLine102 P H U omod modName archiveName settings ini)).trace
        = ((edits.enum.filter (fun p => decide (undecided U.updateINI p.1))).map
            (fun p => some (requestOf p.2))) := by
    unfold applyINIEdits
    simp only [hedits]
    split
    · obtain ⟨l1, l2⟩ := iniEditLoop_spec P U (H.createMod (guessedName H omod modName)).1.value
        (oblivionIniPath P H) edits _ hund
      rw [l1, l2, hw0, hasked]
      simp [iniPrompts, hp0, List.enum]
    · rename_i hlen
      have : edits = [] := by
        cases edits with
        | nil => rfl
        | cons a t => simp at hlen
      subst this
      simp [hw0, iniPrompts, hp0]
  -- what precedes and follows the loop writes nothing and asks nothing
  rw [install_of_mod P H F U modName gameName archiveName version nexusID settings ini omod
    modInterface hopen hmod]
  have hsw := installWithScript_filterMap Event.iniWrite? P H F U omod
    (H.createMod (guessedName H omod modName)).1 modInterface archiveName
    (atLine97 P H U omod modName archiveName settings ini) scriptData hrun hnc
    rfl (by intros; rfl) (by intros; rfl) (by intros; rfl) (by intros; rfl) (by intros; rfl)
  have hsp := installWithScript_filterMap Event.iniPrompt? P H F U omod
    (H.createMod (guessedName H omod modName)).1 modInterface archiveName
    (atLine97 P H U omod modName archiveName settings ini) scriptData hrun hnc
    rfl (by intros; rfl) (by intros; rfl) (by intros; rfl) (by intros; rfl) (by intros; rfl)
  simp only [installContents, hscript, if_true]
  rw [← hloop.1, ← hloop.2]
  unfold atLine102 iniPrompts iniWrites iniPromptTexts
  rw [← hsw, ← hsp]
  split <;>
    simp [List.filterMap_append, Event.iniWrite?, Event.iniPrompt?]

/-- C3: when the first NoToAll is answered at the prompt of the Nth of M ini
edits (edit `edit`, after the N-1 edits `pre` and before `post`), with no
YesToAll before it, then the prompts shown are those of edits 1..N and no
other, none of the edits N..M is written, and each edit before N is written
exactly when its own prompt was answered Yes. -/
theorem noToAll_skips_remaining_edits (P : Platform σ) (H : Host) (F : Framework) (U : User)
    (modName : GuessedValue) (gameName archiveName version : String) (nexusID : Int)
    (settings : Settings) (ini : σ) (omod : OMOD) (modInterface : IModInterface)
    (scriptData : ScriptReturnData) (pre : List INIEditInfo) (edit : INIEditInfo)
    (post : List INIEditInfo) (hopen : F.omod = .ok omod)
    (hmod : (H.createMod (guessedName H omod modName)).2 = some modInterface)
    (hscript : omod.HasScript = true) (hrun : F.RunScript = .ok (some scriptData))
    (hnc : scriptData.CancelInstall = false)
    (hedits : scriptData.INIEdits = some (pre ++ edit :: post))
    (hbefore : ∀ k, k < pre.length →
      U.updateINI k ≠ StandardButton.YesToAll ∧ U.updateINI k ≠ StandardButton.NoToAll)
    (hno : U.updateINI pre.length = StandardButton.NoToAll) :
    iniWrites (install P H F U modName gameName archiveName version nexusID settings ini).1.trace
      = ((pre.enum.filter (fun p => decide (U.updateINI p.1 = StandardButton.Yes))).map
          (fun p => requestOf p.2)) ∧
    iniPrompts (install P H F U modName gameName archiveName version nexusID settings ini).1.trace
      = (pre ++ [edit]).map (fun e => some (requestOf e)) := by
  obtain ⟨h1, h2⟩ := install_ini_spec P H F U modName gameName archiveName version nexusID
    settings ini omod modInterface scriptData (pre ++ edit :: post) hopen hmod hscript hrun hnc
    hedits
  have hund : ∀ i, i ≤ pre.length → undecided U.updateINI i := by
    intro i hi k hk
    have := hbefore k (by omega)
    cases hk' : U.updateINI k <;> simp_all
  have hpre1 : pre.enum.filter (fun p => decide (writtenSpec U.updateINI p.1))
      = pre.enum.filter (fun p => decide (U.updateINI p.1 = StandardButton.Yes)) := by
    apply List.filter_congr
    intro p hp
    have hlt := List.fst_lt_of_mem_enum hp
    have := hbefore p.1 hlt
    rw [decide_eq_decide, writtenSpec_of_undecided (hund p.1 (by omega))]
    simp [this.1]
  have hpre2 : pre.enum.filter (fun p => decide (undecided U.updateINI p.1)) = pre.enum := by
    rw [List.filter_eq_self]
    intro p hp
    have hlt := List.fst_lt_of_mem_enum hp
    simpa using hund p.1 (by omega)
  have hpost1 : (post.enumFrom (pre.length + 1)).filter
      (fun p => decide (writtenSpec U.updateINI p.1)) = [] := by
    rw [List.filter_eq_nil_iff]
    intro p hp
    have := List.le_fst_of_mem_enumFrom hp
    simpa using not_writtenSpec_after_noToAll (hund _ (le_refl _)) hno (by omega)
  have hpost2 : (post.enumFrom (pre.length + 1)).filter
      (fun p => decide (undecided U.updateINI p.1)) = [] := by
    rw [List.filter_eq_nil_iff]
    intro p hp
    have := List.le_fst_of_mem_enumFrom hp
    simpa using not_undecided_of_lt U.updateINI pre.length p.1
      (by omega) (by rw [hno]; simp)
  have hN1 : ¬ writtenSpec U.updateINI pre.length := by
    rw [writtenSpec_of_undecided (hund _ (le_refl _)), hno]; simp
  have hN2 : undecided U.updateINI pre.length := hund _ (le_refl _)
  have hm := map_snd_enumFrom (fun e => some (requestOf e)) pre 0
  rw [h1, h2, List.enum_append, List.enumFrom_cons, List.filter_append, List.filter_append,
    List.filter_cons, List.filter_cons, hpre1, hpre2, hpost1, hpost2]
  simp [hN1, hN2, List.enum, hm]

/-- C3 with three edits and the answers Yes, NoToAll: two prompts, one write. -/
theorem noToAll_skips_remaining_edits_witness :
    iniWrites (install Demo.platform Demo.host Demo.framework Demo.user Demo.modName
        "Oblivion" "a.omod" "1" 0 Demo.settings []).1.trace = [("General", "a", "1")] ∧
    iniPrompts (install Demo.platform Demo.host Demo.framework Demo.user Demo.modName
        "Oblivion" "a.omod" "1" 0 Demo.settings []).1.trace
      = [some ("General", "a", "1"), some ("General", "b", "2")] := by
  have h := noToAll_skips_remaining_edits Demo.platform Demo.host Demo.framework Demo.user
    Demo.modName "Oblivion" "a.omod" "1" 0 Demo.settings [] Demo.omod Demo.modInterface
    Demo.scriptData [Demo.edits.get ⟨0, by decide⟩] (Demo.edits.get ⟨1, by decide⟩)
    [Demo.edits.get ⟨2, by decide⟩] rfl rfl rfl rfl rfl rfl (by decide) (by decide)
  exact ⟨h.1.trans (by decide), h.2.trans (by decide)⟩

/-- C4: in a call that runs the script to an uncancelled result with ini
edits, the edits written are, in order and each once, exactly those the loop
reaches whose own prompt is answered Yes or YesToAll or that come after an
edit answered YesToAll; prompts are shown exactly for the edits that come
before any YesToAll or NoToAll answer has settled the rest, so an edit after
a YesToAll is written without a prompt; and an edit answered No is not
written. -/
theorem ini_edit_written_iff_affirmed (P : Platform σ) (H : Host) (F : Framework) (U : User)
    (modName : GuessedValue) (gameName archiveName version : String) (nexusID : Int)
    (settings : Settings) (ini : σ) (omod : OMOD) (modInterface : IModInterface)
    (scriptData : ScriptReturnData) (edits : List INIEditInfo) (hopen : F.omod = .ok omod)
    (hmod : (H.createMod (guessedName H omod modName)).2 = some modInterface)
    (hscript : omod.HasScript = true) (hrun : F.RunScript = .ok (some scriptData))
    (hnc : scriptData.CancelInstall = false) (hedits : scriptData.INIEdits = some edits) :
    iniWrites (install P H F U modName gameName archiveName version nexusID settings ini).1.trace
      = ((edits.enum.filter (fun p => decide (writtenSpec U.updateINI p.1))).map
          (fun p => requestOf p.2)) ∧
    iniPrompts (install P H F U modName gameName archiveName version nexusID settings ini).1.trace
      = ((edits.enum.filter (fun p => decide (undecided U.updateINI p.1))).map
          (fun p => some (requestOf p.2))) ∧
    (∀ i, yesToAllBefore U.updateINI i →
      writtenSpec U.updateINI i ∧ ¬ undecided U.updateINI i) ∧
    (∀ i, undecided U.updateINI i → U.updateINI i = StandardButton.No →
      ¬ writtenSpec U.updateINI i) := by
  obtain ⟨h1, h2⟩ := install_ini_spec P H F U modName gameName archiveName version nexusID
    settings ini omod modInterface scriptData edits hopen hmod hscript hrun hnc hedits
  refine ⟨h1, h2, ?_, ?_⟩
  · rintro i ⟨j, hj, hu, hy⟩
    exact ⟨writtenSpec_after_yesToAll hu hy hj,
      not_undecided_of_lt _ _ _ hj (by rw [hy]; simp)⟩
  · intro i hu hn
    rw [writtenSpec_of_undecided hu, hn]
    simp

/-- C4 with three edits and the answers No, YesToAll: two prompts, and the
second and third edit written, the third without a prompt. -/
theorem ini_edit_written_iff_affirmed_witness :
    iniWrites (install Demo.platform Demo.host Demo.framework Demo.yesToAllUser Demo.modName
        "Oblivion" "a.omod" "1" 0 Demo.settings []).1.trace
      = [("General", "b", "2"), ("Display", "c", "3")] ∧
    iniPrompts (install Demo.platform Demo.host Demo.framework Demo.yesToAllUser Demo.modName
        "Oblivion" "a.omod" "1" 0 Demo.settings []).1.trace
      = [some ("General", "a", "1"), some ("General", "b", "2")] := by
  have h := ini_edit_written_iff_affirmed Demo.platform Demo.host Demo.framework
    Demo.yesToAllUser Demo.modName "Oblivion" "a.omod" "1" 0 Demo.settings [] Demo.omod
    Demo.modInterface Demo.scriptData Demo.edits rfl rfl rfl rfl rfl rfl
  exact ⟨h.1.trans (by decide), h.2.1.trans (by decide)⟩

/-! ## The old value of an ini edit -/

/-- The section under which the ini file is consulted is the edit's section
name without its first and its last character. -/
theorem section_name_stripped (s : String) :
    (QString.mid s 1 ((s.length : Int) - 2)).data = (s.data.drop 1).dropLast := by
  unfold QString.mid
  have hlen : s.length = s.data.length := rfl
  rw [hlen]
  rcases hd : s.data with _ | ⟨a, _ | ⟨b, t⟩⟩
  · simp
  · simp
  · simp only [List.length_cons, List.drop_succ_cons, List.drop_zero]
    have h1 : ¬ (t.length + 1 + 1 < 1) := by omega
    have h2 : ((↑(t.length + 1 + 1) : Int) - 2).toNat = t.length := by
      push_cast; omega
    have h3 : ¬ ((↑(t.length + 1 + 1) : Int) - 2 < 0 ∨ t.length + 1 + 1 - 1 < t.length) := by
      push_cast; omega
    rw [if_neg h1, h2, if_neg h3, List.dropLast_eq_take]
    simp

/-- C8: in any iteration of the ini loop, (a) when the script supplies no old
value and the key is not set in the live ini file, under the section name
with its first and last character removed, the ini file is read once, the
old value shown is the empty string and the prompt, when one is shown, is the
"wants to set" form, which names no old value; (b) when the script supplies
an old value, the ini file is not read, that value is shown, and the prompt,
when one is shown, is the "wants to change" form with that value (the "wants
to set" form when that value is empty); (c) the section used throughout is
the edit's section name without its first and last character. -/
theorem old_value_resolution (P : Platform σ) (U : User) (modName path : String)
    (edit : INIEditInfo) (yesToAll : Bool) (w : World σ) :
    (edit.OldValue = none →
      P.profileLookup w.ini path
        (QString.mid edit.Section 1 ((edit.Section.length : Int) - 2)) edit.Name = none →
      iniReads (iniEdit P U modName path edit yesToAll w).world.trace
        = iniReads w.trace ++
          [(QString.mid edit.Section 1 ((edit.Section.length : Int) - 2), edit.Name, path)] ∧
      oldValuesLogged (iniEdit P U modName path edit yesToAll w).world.trace
        = oldValuesLogged w.trace ++ [""] ∧
      iniPromptTexts (iniEdit P U modName path edit yesToAll w).world.trace
        = iniPromptTexts w.trace ++
          (if yesToAll then []
            else [⟨"%1 wants to set [%2] %3 to \"%4\"",
              [modName, QString.mid edit.Section 1 ((edit.Section.length : Int) - 2), edit.Name,
                edit.NewValue]⟩])) ∧
    (∀ old, edit.OldValue = some old →
      iniReads (iniEdit P U modName path edit yesToAll w).world.trace = iniReads w.trace ∧
      oldValuesLogged (iniEdit P U modName path edit yesToAll w).world.trace
        = oldValuesLogged w.trace ++ [old] ∧
      iniPromptTexts (iniEdit P U modName path edit yesToAll w).world.trace
        = iniPromptTexts w.trace ++
          (if yesToAll then []
            else if old ≠ "" then
              [⟨"%1 wants to change [%2] %3 from \"%4\" to \"%5\"",
                [modName, QString.mid edit.Section 1 ((edit.Section.length : Int) - 2), edit.Name,
                  old, edit.NewValue]⟩]
            else
              [⟨"%1 wants to set [%2] %3 to \"%4\"",
                [modName, QString.mid edit.Section 1 ((edit.Section.length : Int) - 2), edit.Name,
                  edit.NewValue]⟩])) ∧
    (QString.mid edit.Section 1 ((edit.Section.length : Int) - 2)).data
      = (edit.Section.data.drop 1).dropLast := by
  refine ⟨?_, ?_, section_name_stripped edit.Section⟩
  · intro hold hlook
    unfold iniEdit doEdit iniReads oldValuesLogged iniPromptTexts GetPrivateProfileString
    cases yesToAll <;> cases hans : U.updateINI w.asked <;>
      simp [hold, hlook, hans, List.filterMap_append, Event.iniRead?, Event.oldValueLogged?, Event.iniPrompt?]
  · intro old hold
    unfold iniEdit doEdit iniReads oldValuesLogged iniPromptTexts
    cases yesToAll <;> cases hans : U.updateINI w.asked <;> by_cases ho : old = "" <;>
      simp [hold, hans, List.filterMap_append, Event.iniRead?, Event.oldValueLogged?, Event.iniPrompt?, ho]

/-- C8 at the first edit of the example (no old value, empty ini file) and at
its second edit (old value "0"). -/
theorem old_value_resolution_witness :
    (oldValuesLogged (iniEdit Demo.platform Demo.yesUser "M" "docs/Oblivion.ini"
        (Demo.edits.get ⟨0, by decide⟩) false ⟨[], Demo.settings, [], 0⟩).world.trace = [""] ∧
      iniPromptTexts (iniEdit Demo.platform Demo.yesUser "M" "docs/Oblivion.ini"
        (Demo.edits.get ⟨0, by decide⟩) false ⟨[], Demo.settings, [], 0⟩).world.trace
        = [⟨"%1 wants to set [%2] %3 to \"%4\"", ["M", "General", "a", "1"]⟩]) ∧
    (iniReads (iniEdit Demo.platform Demo.yesUser "M" "docs/Oblivion.ini"
        (Demo.edits.get ⟨1, by decide⟩) false ⟨[], Demo.settings, [], 0⟩).world.trace = [] ∧
      oldValuesLogged (iniEdit Demo.platform Demo.yesUser "M" "docs/Oblivion.ini"
        (Demo.edits.get ⟨1, by decide⟩) false ⟨[], Demo.settings, [], 0⟩).world.trace = ["0"]) := by
  have h0 := (old_value_resolution Demo.platform Demo.yesUser "M" "docs/Oblivion.ini"
    (Demo.edits.get ⟨0, by decide⟩) false ⟨[], Demo.settings, [], 0⟩).1 rfl rfl
  have h1 := (old_value_resolution Demo.platform Demo.yesUser "M" "docs/Oblivion.ini"
    (Demo.edits.get ⟨1, by decide⟩) false ⟨[], Demo.settings, [], 0⟩).2.1 "0" rfl
  exact ⟨⟨h0.2.1, h0.2.2.trans (by decide)⟩, ⟨h1.1, h1.2.1⟩⟩

/-- The script branch leaves `install` only by an exception or with Canceled. -/
theorem installContents_outcome (P : Platform σ) (H : Host) (F : Framework) (U : User)
    (omod : OMOD) (modName : GuessedValue) (modInterface : IModInterface) (archiveName : String)
    (w : World σ) :
    (installContents P H F U omod modName modInterface archiveName w).2
      ≠ some (.returned .RESULT_SUCCESS) := by
  unfold installContents installWithScript
  split
  · split
    · simp
    · simp
    · split
      · simp
      · simp only []
        split <;> simp
  · simp

/-- An observation that ignores everything the two branches do sees nothing
of them. -/
theorem installContents_filterMap {α : Type} (f : Event → Option α) (P : Platform σ)
    (H : Host) (F : Framework) (U : User) (omod : OMOD) (modName : GuessedValue)
    (modInterface : IModInterface) (archiveName : String) (w : World σ)
    (hl : ∀ l x y, f (.log l x y) = none) (hr : f .runScript = none)
    (hg : ∀ x y z, f (.getPrivateProfileString x y z) = none)
    (hq : ∀ x, f (.question "Update INI?" x) = none)
    (hwr : ∀ x y z p, f (.writeRegistryValue x y z p) = none)
    (hp : f .pretty = none) (hd : ∀ x, f (.createDirectory x) = none)
    (hc : ∀ x y, f (.fileCopy x y) = none) (hi : ∀ t x, f (.information t x) = none)
    (hw : ∀ t x, f (.warning t x) = none)
    (hm : ∀ x y, f (.shellMove x y) = none) (hrm : ∀ x, f (.fileRemove x) = none) :
    (installContents P H F U omod modName modInterface archiveName w).1.trace.filterMap f
      = w.trace.filterMap f := by
  unfold installContents
  split
  · cases hrun : F.RunScript with
    | error what => simp [installWithScript, hrun, List.filterMap_append, hl, hr]
    | ok result =>
      cases result with
      | none => simp [installWithScript, hrun, List.filterMap_append, hl, hr]
      | some scriptData =>
        cases hnc : scriptData.CancelInstall with
        | true => simp [installWithScript, hrun, hnc, List.filterMap_append, hl, hr]
        | false =>
          rw [installWithScript_filterMap f P H F U omod modName modInterface archiveName w
            scriptData hrun hnc hp hd hc hi hw (hl .warn),
            applyINIEdits_filterMap f P H U _ _ _ hg (hl .debug) hq hwr]
          simp [List.filterMap_append, hl, hr]
  · exact installWithoutScript_filterMap f P omod modInterface w hm hl hrm

/-- C9: whenever `install` returns Success, the archive opened and the one
version set on the mod is (max(major,0), max(minor,0), max(build,0)) of the
framework's MajorVersion, MinorVersion and BuildVersion: each component is
non-negative, equals the framework's value when that is non-negative and is
0 when it is negative. -/
theorem version_set_on_success (P : Platform σ) (H : Host) (F : Framework) (U : User)
    (modName : GuessedValue) (gameName archiveName version : String) (nexusID : Int)
    (settings : Settings) (ini : σ)
    (hsuccess : (install P H F U modName gameName archiveName version nexusID settings ini).2
      = .returned .RESULT_SUCCESS) :
    ∃ omod, F.omod = .ok omod ∧
      versionsSet (install P H F U modName gameName archiveName version nexusID settings ini).1.trace
        = [(max omod.MajorVersion 0, max omod.MinorVersion 0, max omod.BuildVersion 0)] ∧
      (0 ≤ max omod.MajorVersion 0 ∧ 0 ≤ max omod.MinorVersion 0 ∧ 0 ≤ max omod.BuildVersion 0) ∧
      (0 ≤ omod.MajorVersion → max omod.MajorVersion 0 = omod.MajorVersion) ∧
      (0 ≤ omod.MinorVersion → max omod.MinorVersion 0 = omod.MinorVersion) ∧
      (0 ≤ omod.BuildVersion → max omod.BuildVersion 0 = omod.BuildVersion) ∧
      (omod.MajorVersion < 0 → max omod.MajorVersion 0 = 0) ∧
      (omod.MinorVersion < 0 → max omod.MinorVersion 0 = 0) ∧
      (omod.BuildVersion < 0 → max omod.BuildVersion 0 = 0) := by
  cases hopen : F.omod with
  | error what =>
    rw [(install_of_open_error P H F U modName gameName archiveName version nexusID settings ini
      what hopen).1] at hsuccess
    cases hsuccess
  | ok omod =>
    refine ⟨omod, rfl, ?_, ⟨le_max_right _ _, le_max_right _ _, le_max_right _ _⟩,
      fun h => max_eq_left h, fun h => max_eq_left h, fun h => max_eq_left h,
      fun h => max_eq_right (le_of_lt h), fun h => max_eq_right (le_of_lt h),
      fun h => max_eq_right (le_of_lt h)⟩
    cases hmod : (H.createMod (guessedName H omod modName)).2 with
    | none =>
      rw [(install_of_no_mod P H F U modName gameName archiveName version nexusID settings ini
        omod hopen hmod).1] at hsuccess
      cases hsuccess
    | some modInterface =>
      rw [install_of_mod P H F U modName gameName archiveName version nexusID settings ini omod
        modInterface hopen hmod] at hsuccess ⊢
      have hout := installContents_outcome P H F U omod
        (H.createMod (guessedName H omod modName)).1 modInterface archiveName
        (atLine97 P H U omod modName archiveName settings ini)
      have hquiet := installContents_filterMap Event.versionSet? P H F U omod
        (H.createMod (guessedName H omod modName)).1 modInterface archiveName
        (atLine97 P H U omod modName archiveName settings ini)
        (by intros; rfl) rfl (by intros; rfl) (by intros; rfl) (by intros; rfl) rfl
        (by intros; rfl) (by intros; rfl) (by intros; rfl) (by intros; rfl) (by intros; rfl)
        (by intros; rfl)
      have hstart := atLine97_filterMap Event.versionSet? P H U omod modName archiveName settings
        ini (by intros; rfl) (by intros; rfl) (by intros; rfl) (by intros; rfl)
        (by intros; rfl) (by intros; rfl)
      cases hres : (installContents P H F U omod (H.createMod (guessedName H omod modName)).1
          modInterface archiveName (atLine97 P H U omod modName archiveName settings ini)).2 with
      | some outcome =>
        rw [hres] at hsuccess hout
        simp only at hsuccess
        rw [hsuccess] at hout
        exact absurd rfl hout
      | none =>
        simp [versionsSet, List.filterMap_append, hquiet, hstart, Event.versionSet?]

/-- C9 at an archive with version 1.-1.0: the version set is 1.0.0. -/
theorem version_set_on_success_witness :
    (install Demo.platform Demo.host Demo.framework Demo.user Demo.modName
        "Oblivion" "a.omod" "1" 0 Demo.settings []).2 = .returned .RESULT_SUCCESS ∧
    versionsSet (install Demo.platform Demo.host Demo.framework Demo.user Demo.modName
        "Oblivion" "a.omod" "1" 0 Demo.settings []).1.trace = [(1, 0, 0)] := by
  have hs : (install Demo.platform Demo.host Demo.framework Demo.user Demo.modName
        "Oblivion" "a.omod" "1" 0 Demo.settings []).2 = .returned .RESULT_SUCCESS := by decide
  obtain ⟨omod, ho, hv, _⟩ := version_set_on_success Demo.platform Demo.host Demo.framework
    Demo.user Demo.modName "Oblivion" "a.omod" "1" 0 Demo.settings [] hs
  have : omod = Demo.omod := by
    have h2 : Demo.framework.omod = .ok Demo.omod := rfl
    rw [h2] at ho
    exact (Except.ok.inj ho).symm
  subst this
  exact ⟨hs, hv.trans (by decide)⟩

/-! ## The unhandled categories -/

theorem unhandledScriptReturnDataCounts_eq (scriptData : ScriptReturnData) :
    unhandledScriptReturnDataCounts scriptData
      = [("ConflictsWith", countOrZero scriptData.ConflictsWith),
         ("DependsOn", countOrZero scriptData.DependsOn),
         ("ESPDeactivation", countOrZero scriptData.ESPDeactivation),
         ("ESPEdits", countOrZero scriptData.ESPEdits),
         ("EarlyPlugins", countOrZero scriptData.EarlyPlugins),
         ("LoadOrderSet", countOrZero scriptData.LoadOrderSet),
         ("PatchFiles", countOrZero scriptData.PatchFiles),
         ("RegisterBSASet", countOrZero scriptData.RegisterBSASet),
         ("SDPEdits", countOrZero scriptData.SDPEdits)] := by
  simp +decide [unhandledScriptReturnDataCounts, mapSet]

theorem hasEntries_eq (c : Option Collection) : hasEntries c = decide (countOrZero c ≠ 0) := by
  cases c <;> simp [hasEntries, countOrZero]

theorem warnUnhandled_warnings (omod : OMOD) (archiveName : String) (m : List (String × Nat)) :
    ∀ w : World σ,
      unhandledWarnings (warnUnhandled omod archiveName m w).trace
        = unhandledWarnings w.trace ++
          (m.filter (fun p => decide (p.2 ≠ 0))).map (fun p => [omod.ModName.getD "", p.1]) ∧
      warnLines (warnUnhandled omod archiveName m w).trace
        = warnLines w.trace ++
          (m.filter (fun p => decide (p.2 ≠ 0))).map
            (fun p => [omod.ModName.getD "", archiveName, toString p.2, p.1]) := by
  induction m with
  | nil => intro w; simp [warnUnhandled]
  | cons p rest ih =>
    intro w
    simp only [warnUnhandled]
    obtain ⟨i1, i2⟩ := ih (if p.2 ≠ 0 then _ else w)
    rw [i1, i2]
    by_cases hp : p.2 = 0 <;>
      simp [hp, unhandledWarnings, warnLines, List.filterMap_append, Event.unhandledWarning?,
        Event.warnLine?, List.filter_cons]

theorem copyInstallFiles_ok (P : Platform σ) (modPath : String) (files : List InstallFile) :
    ∀ (set : List String) (w : World σ), copiesSucceed P modPath files →
      ∃ installedPlugins, (copyInstallFiles P modPath files set w).2 = .ok installedPlugins := by
  induction files with
  | nil => intro set w _; exact ⟨set, rfl⟩
  | cons file rest ih =>
    intro set w h
    obtain ⟨h1, h2⟩ := h file (List.mem_cons_self _ _)
    simp only [copyInstallFiles, h1, h2]
    exact ih _ _ (fun f hf => h f (List.mem_cons_of_mem _ hf))

/-- The script branch with an uncancelled result, unfolded to the copies. -/
theorem installWithScript_of_result (P : Platform σ) (H : Host) (F : Framework) (U : User)
    (omod : OMOD) (modName : GuessedValue) (modInterface : IModInterface) (archiveName : String)
    (w : World σ) (scriptData : ScriptReturnData)
    (hrun : F.RunScript = .ok (some scriptData)) (hnc : scriptData.CancelInstall = false) :
    installWithScript P H F U omod modName modInterface archiveName w
      = (match copyInstallFiles P modInterface.absolutePath
            (F.Pretty scriptData omod omod.GetDataFiles omod.GetPlugins).InstallFiles []
            ((applyINIEdits P H U modName.value scriptData
              ((w.emit (.log .debug "Mod has script. Run it." [])).emit .runScript)).emit
              .pretty) with
        | (w, .error what) => (w, some (.thrown what))
        | (w, .ok installedPlugins) =>
          (warnUnhandled omod archiveName
            (unhandledScriptReturnDataCounts
              (F.Pretty scriptData omod omod.GetDataFiles omod.GetPlugins))
            (warnUncheckedPlugins omod
              (exceptUnchecked P installedPlugins
                (F.Pretty scriptData omod omod.GetDataFiles omod.GetPlugins).UncheckedPlugins)
              (F.Pretty scriptData omod omod.GetDataFiles omod.GetPlugins).UncheckedPlugins w),
            none)) := by
  simp only [installWithScript, hrun, hnc, Bool.false_eq_true, if_false]

/-- The warnings of the script branch are those of the loop over the table of
counts, when the branch gets that far, and none otherwise. -/
theorem installWithScript_warnings (P : Platform σ) (H : Host) (F : Framework) (U : User)
    (omod : OMOD) (modName : GuessedValue) (modInterface : IModInterface) (archiveName : String)
    (w : World σ) (scriptData : ScriptReturnData)
    (hrun : F.RunScript = .ok (some scriptData)) (hnc : scriptData.CancelInstall = false) :
    ((installWithScript P H F U omod modName modInterface archiveName w).2 = none ∧
      unhandledWarnings (installWithScript P H F U omod modName modInterface archiveName w).1.trace
        = unhandledWarnings w.trace ++
          ((unhandledScriptReturnDataCounts
              (F.Pretty scriptData omod omod.GetDataFiles omod.GetPlugins)).filter
            (fun p => decide (p.2 ≠ 0))).map (fun p => [omod.ModName.getD "", p.1]) ∧
      warnLines (installWithScript P H F U omod modName modInterface archiveName w).1.trace
        = warnLines w.trace ++
          ((unhandledScriptReturnDataCounts
              (F.Pretty scriptData omod omod.GetDataFiles omod.GetPlugins)).filter
            (fun p => decide (p.2 ≠ 0))).map
            (fun p => [omod.ModName.getD "", archiveName, toString p.2, p.1])) ∨
    ((∃ what, (installWithScript P H F U omod modName modInterface archiveName w).2
        = some (.thrown what) ∧
        (copyInstallFiles P modInterface.absolutePath
          (F.Pretty scriptData omod omod.GetDataFiles omod.GetPlugins).InstallFiles []
          ((applyINIEdits P H U modName.value scriptData
            ((w.emit (.log .debug "Mod has script. Run it." [])).emit .runScript)).emit
            .pretty)).2 = .error what) ∧
      unhandledWarnings (installWithScript P H F U omod modName modInterface archiveName w).1.trace
        = unhandledWarnings w.trace ∧
      warnLines (installWithScript P H F U omod modName modInterface archiveName w).1.trace
        = warnLines w.trace) := by
  rw [installWithScript_of_result P H F U omod modName modInterface archiveName w scriptData
    hrun hnc]
  have hc1 := copyInstallFiles_filterMap Event.unhandledWarning? P modInterface.absolutePath
    (by intros; rfl) (by intros; rfl)
    (F.Pretty scriptData omod omod.GetDataFiles omod.GetPlugins).InstallFiles []
    ((applyINIEdits P H U modName.value scriptData
      ((w.emit (.log .debug "Mod has script. Run it." [])).emit .runScript)).emit .pretty)
  have hc2 := copyInstallFiles_filterMap Event.warnLine? P modInterface.absolutePath
    (by intros; rfl) (by intros; rfl)
    (F.Pretty scriptData omod omod.GetDataFiles omod.GetPlugins).InstallFiles []
    ((applyINIEdits P H U modName.value scriptData
      ((w.emit (.log .debug "Mod has script. Run it." [])).emit .runScript)).emit .pretty)
  have ha1 := applyINIEdits_filterMap Event.unhandledWarning? P H U modName.value scriptData
    ((w.emit (.log .debug "Mod has script. Run it." [])).emit .runScript)
    (by intros; rfl) (by intros; rfl) (by intros; rfl) (by intros; rfl)
  have ha2 := applyINIEdits_filterMap Event.warnLine? P H U modName.value scriptData
    ((w.emit (.log .debug "Mod has script. Run it." [])).emit .runScript)
    (by intros; rfl) (by intros; rfl) (by intros; rfl) (by intros; rfl)
  simp only [emit_trace, List.filterMap_append, ha1, ha2] at hc1 hc2
  split
  · rename_i w1 what heq
    right
    rw [heq] at hc1 hc2
    refine ⟨⟨what, rfl, ?_⟩, ?_, ?_⟩
    · rw [heq]
    · simpa [unhandledWarnings, Event.unhandledWarning?] using hc1
    · simpa [warnLines, Event.warnLine?] using hc2
  · rename_i w1 installedPlugins heq
    left
    rw [heq] at hc1 hc2
    refine ⟨rfl, ?_, ?_⟩
    · rw [(warnUnhandled_warnings omod archiveName _ _).1]
      unfold unhandledWarnings
      rw [warnUncheckedPlugins_filterMap Event.unhandledWarning? _ _ _ _ (by intros; rfl)]
      simpa [Event.unhandledWarning?] using hc1
    · rw [(warnUnhandled_warnings omod archiveName _ _).2]
      unfold warnLines
      rw [warnUncheckedPlugins_filterMap Event.warnLine? _ _ _ _ (by intros; rfl)]
      simpa [Event.warnLine?] using hc2

/-- The table of counts has as many non-zero entries as there are categories
with entries. -/
theorem nonzero_counts_length (scriptData : ScriptReturnData) :
    ((unhandledScriptReturnDataCounts scriptData).filter (fun p => decide (p.2 ≠ 0))).length
      = ((unhandledCategories scriptData).filter (fun c => hasEntries c.2)).length := by
  rw [unhandledScriptReturnDataCounts_eq]
  simp only [unhandledCategories, hasEntries_eq, ← List.countP_eq_length_filter,
    List.countP_cons, List.countP_nil]
  omega

/-- In the table of counts, a category has one non-zero entry when it has
entries and none otherwise. -/
theorem nonzero_counts_of_category (scriptData : ScriptReturnData)
    (c : String × Option Collection) (hc : c ∈ unhandledCategories scriptData) :
    ((unhandledScriptReturnDataCounts scriptData).filter
        (fun p => decide (p.2 ≠ 0) && decide (p.1 = c.1))).length
      = (if hasEntries c.2 then 1 else 0) := by
  rw [unhandledScriptReturnDataCounts_eq]
  simp only [unhandledCategories, List.mem_cons, List.mem_singleton, List.not_mem_nil,
    or_false] at hc
  rcases hc with rfl | rfl | rfl | rfl | rfl | rfl | rfl | rfl | rfl <;>
    simp +decide [hasEntries_eq, List.filter_cons] <;> split <;> simp_all

/-- In a call that runs the script to an uncancelled result and whose file
copies succeed, the warnings are those of the loop over the table of counts
and the call returns Success. -/
theorem install_warnings (P : Platform σ) (H : Host) (F : Framework) (U : User)
    (modName : GuessedValue) (gameName archiveName version : String) (nexusID : Int)
    (settings : Settings) (ini : σ) (omod : OMOD) (modInterface : IModInterface)
    (scriptData : ScriptReturnData) (hopen : F.omod = .ok omod)
    (hmod : (H.createMod (guessedName H omod modName)).2 = some modInterface)
    (hscript : omod.HasScript = true) (hrun : F.RunScript = .ok (some scriptData))
    (hnc : scriptData.CancelInstall = false)
    (hcopies : copiesSucceed P modInterface.absolutePath
      (F.Pretty scriptData omod omod.GetDataFiles omod.GetPlugins).InstallFiles) :
    (install P H F U modName gameName archiveName version nexusID settings ini).2
      = .returned .RESULT_SUCCESS ∧
    unhandledWarnings
      (install P H F U modName gameName archiveName version nexusID settings ini).1.trace
      = ((unhandledScriptReturnDataCounts
            (F.Pretty scriptData omod omod.GetDataFiles omod.GetPlugins)).filter
          (fun p => decide (p.2 ≠ 0))).map (fun p => [omod.ModName.getD "", p.1]) ∧
    warnLines
      (install P H F U modName gameName archiveName version nexusID settings ini).1.trace
      = ((unhandledScriptReturnDataCounts
            (F.Pretty scriptData omod omod.GetDataFiles omod.GetPlugins)).filter
          (fun p => decide (p.2 ≠ 0))).map
          (fun p => [omod.ModName.getD "", archiveName, toString p.2, p.1]) := by
  have hw0 : unhandledWarnings (atLine97 P H U omod modName archiveName settings ini).trace = [] :=
    atLine97_filterMap Event.unhandledWarning? P H U omod modName archiveName settings ini
      (by intros; rfl) (by intros; rfl) (by intros; rfl) (by intros; rfl)
      (by intros; rfl) (by intros; rfl)
  have hl0 : warnLines (atLine97 P H U omod modName archiveName settings ini).trace = [] :=
    atLine97_filterMap Event.warnLine? P H U omod modName archiveName settings ini
      (by intros; rfl) (by intros; rfl) (by intros; rfl) (by intros; rfl)
      (by intros; rfl) (by intros; rfl)
  rw [install_of_mod P H F U modName gameName archiveName version nexusID settings ini omod
    modInterface hopen hmod]
  simp only [installContents, hscript, if_true]
  rcases installWithScript_warnings P H F U omod (H.createMod (guessedName H omod modName)).1
    modInterface archiveName (atLine97 P H U omod modName archiveName settings ini) scriptData
    hrun hnc with ⟨hres, hwarn, hline⟩ | ⟨⟨what, _, herr⟩, _, _⟩
  · rw [hres]
    simp only [emit_trace, List.append_assoc]
    have e1 : unhandledWarnings
        ((installWithScript P H F U omod (H.createMod (guessedName H omod modName)).1
          modInterface archiveName
          (atLine97 P H U omod modName archiveName settings ini)).1.trace ++
          ([.setVersion (max omod.MajorVersion 0) (max omod.MinorVersion 0)
              (max omod.BuildVersion 0)] ++
            [.temporaryDirRemoved
              (P.temporaryDirPath (P.Combine (P.GetPathRoot H.modsPath) "OMODTempXXXXXX"))]))
        = ((unhandledScriptReturnDataCounts
              (F.Pretty scriptData omod omod.GetDataFiles omod.GetPlugins)).filter
            (fun p => decide (p.2 ≠ 0))).map (fun p => [omod.ModName.getD "", p.1]) := by
      rw [← List.nil_append (List.map _ _), ← hw0, ← hwarn]
      simp [unhandledWarnings, List.filterMap_append, Event.unhandledWarning?]
    have e2 : warnLines
        ((installWithScript P H F U omod (H.createMod (guessedName H omod modName)).1
          modInterface archiveName
          (atLine97 P H U omod modName archiveName settings ini)).1.trace ++
          ([.setVersion (max omod.MajorVersion 0) (max omod.MinorVersion 0)
              (max omod.BuildVersion 0)] ++
            [.temporaryDirRemoved
              (P.temporaryDirPath (P.Combine (P.GetPathRoot H.modsPath) "OMODTempXXXXXX"))]))
        = ((unhandledScriptReturnDataCounts
              (F.Pretty scriptData omod omod.GetDataFiles omod.GetPlugins)).filter
            (fun p => decide (p.2 ≠ 0))).map
            (fun p => [omod.ModName.getD "", archiveName, toString p.2, p.1]) := by
      rw [← List.nil_append (List.map _ _), ← hl0, ← hline]
      simp [warnLines, List.filterMap_append, Event.warnLine?]
    exact ⟨trivial, e1, e2⟩
  · obtain ⟨set, hset⟩ := copyInstallFiles_ok P modInterface.absolutePath
      (F.Pretty scriptData omod omod.GetDataFiles omod.GetPlugins).InstallFiles []
      ((applyINIEdits P H U (H.createMod (guessedName H omod modName)).1.value scriptData
        (((atLine97 P H U omod modName archiveName settings ini).emit
          (.log .debug "Mod has script. Run it." [])).emit .runScript)).emit .pretty) hcopies
    rw [hset] at herr
    cases herr

/-- C7: in a call that runs the script to an uncancelled result and whose
file copies succeed, `install` returns Success; the number of "can't
completely install" warning dialogs is the number of unhandled categories
whose collection is non-null with a non-zero count, and so is the number of
lines logged at warning level; and for each category there is exactly one
dialog and one such line when its collection is non-null with a non-zero
count, and none when it is null or empty. -/
theorem unhandled_categories_warned (P : Platform σ) (H : Host) (F : Framework) (U : User)
    (modName : GuessedValue) (gameName archiveName version : String) (nexusID : Int)
    (settings : Settings) (ini : σ) (omod : OMOD) (modInterface : IModInterface)
    (scriptData : ScriptReturnData) (hopen : F.omod = .ok omod)
    (hmod : (H.createMod (guessedName H omod modName)).2 = some modInterface)
    (hscript : omod.HasScript = true) (hrun : F.RunScript = .ok (some scriptData))
    (hnc : scriptData.CancelInstall = false)
    (hcopies : copiesSucceed P modInterface.absolutePath
      (F.Pretty scriptData omod omod.GetDataFiles omod.GetPlugins).InstallFiles) :
    (install P H F U modName gameName archiveName version nexusID settings ini).2
      = .returned .RESULT_SUCCESS ∧
    (unhandledWarnings
      (install P H F U modName gameName archiveName version nexusID settings ini).1.trace).length
      = ((unhandledCategories
          (F.Pretty scriptData omod omod.GetDataFiles omod.GetPlugins)).filter
          (fun c => hasEntries c.2)).length ∧
    (warnLines
      (install P H F U modName gameName archiveName version nexusID settings ini).1.trace).length
      = ((unhandledCategories
          (F.Pretty scriptData omod omod.GetDataFiles omod.GetPlugins)).filter
          (fun c => hasEntries c.2)).length ∧
    ∀ c, c ∈ unhandledCategories (F.Pretty scriptData omod omod.GetDataFiles omod.GetPlugins) →
      ((unhandledWarnings
        (install P H F U modName gameName archiveName version nexusID settings ini).1.trace).filter
          (fun args => decide (args.get? 1 = some c.1))).length
        = (if hasEntries c.2 then 1 else 0) ∧
      ((warnLines
        (install P H F U modName gameName archiveName version nexusID settings ini).1.trace).filter
          (fun args => decide (args.get? 3 = some c.1))).length
        = (if hasEntries c.2 then 1 else 0) := by
  obtain ⟨h0, e1, e2⟩ := install_warnings P H F U modName gameName archiveName version nexusID
    settings ini omod modInterface scriptData hopen hmod hscript hrun hnc hcopies
  rw [e1, e2]
  refine ⟨h0, ?_, ?_, ?_⟩
  · rw [List.length_map, nonzero_counts_length]
  · rw [List.length_map, nonzero_counts_length]
  · intro c hc
    rw [List.filter_map, List.filter_map, List.length_map, List.length_map,
      List.filter_filter, List.filter_filter]
    have hcat := nonzero_counts_of_category _ c hc
    constructor
    · rw [← hcat]
      congr 1
      apply List.filter_congr
      intro p _
      simp [Bool.and_comm]
    · rw [← hcat]
      congr 1
      apply List.filter_congr
      intro p _
      simp [Bool.and_comm]

/-- C7 at a script result with two categories that have entries and one that
is empty: two dialogs, two lines, Success. -/
theorem unhandled_categories_warned_witness :
    (install Demo.platform Demo.host Demo.framework Demo.user Demo.modName
        "Oblivion" "a.omod" "1" 0 Demo.settings []).2 = .returned .RESULT_SUCCESS ∧
    (unhandledWarnings (install Demo.platform Demo.host Demo.framework Demo.user Demo.modName
        "Oblivion" "a.omod" "1" 0 Demo.settings []).1.trace).length = 2 ∧
    (warnLines (install Demo.platform Demo.host Demo.framework Demo.user Demo.modName
        "Oblivion" "a.omod" "1" 0 Demo.settings []).1.trace).length = 2 := by
  have h := unhandled_categories_warned Demo.platform Demo.host Demo.framework Demo.user
    Demo.modName "Oblivion" "a.omod" "1" 0 Demo.settings [] Demo.omod Demo.modInterface
    Demo.scriptData rfl rfl rfl rfl rfl (fun _ _ => ⟨rfl, rfl⟩)
  exact ⟨h.1, h.2.1.trans (by decide), h.2.2.1.trans (by decide)⟩

/-- The branch taken adds at most as many warning dialogs as the table of
counts has entries. -/
theorem installContents_warnings_le (P : Platform σ) (H : Host) (F : Framework) (U : User)
    (omod : OMOD) (modName : GuessedValue) (modInterface : IModInterface) (archiveName : String)
    (w : World σ) :
    (unhandledWarnings
      (installContents P H F U omod modName modInterface archiveName w).1.trace).length
      ≤ (unhandledWarnings w.trace).length + 9 := by
  unfold installContents
  split
  · cases hrun : F.RunScript with
    | error what =>
      simp [installWithScript, hrun, unhandledWarnings, List.filterMap_append,
        Event.unhandledWarning?]
    | ok result =>
      cases result with
      | none =>
        simp [installWithScript, hrun, unhandledWarnings, List.filterMap_append,
          Event.unhandledWarning?]
      | some scriptData =>
        cases hnc : scriptData.CancelInstall with
        | true =>
          simp [installWithScript, hrun, hnc, unhandledWarnings, List.filterMap_append,
            Event.unhandledWarning?]
        | false =>
          rcases installWithScript_warnings P H F U omod modName modInterface archiveName w
            scriptData hrun hnc with ⟨_, hwarn, _⟩ | ⟨_, hwarn, _⟩
          · rw [hwarn, List.length_append, List.length_map]
            have := List.length_filter_le (fun p : String × Nat => decide (p.2 ≠ 0))
              (unhandledScriptReturnDataCounts
                (F.Pretty scriptData omod omod.GetDataFiles omod.GetPlugins))
            rw [unhandledScriptReturnDataCounts_eq] at this ⊢
            simp only [List.length_cons, List.length_nil] at this
            omega
          · rw [hwarn]; omega
  · have := installWithoutScript_filterMap Event.unhandledWarning? P omod modInterface w
      (by intros; rfl) (by intros; rfl) (by intros; rfl)
    unfold unhandledWarnings
    rw [this]
    omega

/-- C10, as stated, fails: the table of counts of a script result has nine
keys, not eight, and an install can produce nine warning dialogs. -/
theorem nine_categories_not_eight :
    ((unhandledScriptReturnDataCounts Demo.fullData).map Prod.fst).length ≠ 8 ∧
    ¬ (unhandledWarnings (install Demo.platform Demo.host Demo.fullFramework Demo.user
        Demo.modName "Oblivion" "a.omod" "1" 0 Demo.settings []).1.trace).length ≤ 8 := by
  rw [(install_warnings Demo.platform Demo.host Demo.fullFramework Demo.user Demo.modName
    "Oblivion" "a.omod" "1" 0 Demo.settings [] Demo.omod Demo.modInterface Demo.fullData
    rfl rfl rfl rfl rfl (fun _ _ => ⟨rfl, rfl⟩)).2.1, unhandledScriptReturnDataCounts_eq,
    unhandledScriptReturnDataCounts_eq]
  decide

/-- C10, amended: the table of category counts built from a script result
has exactly nine distinct keys, and no call of `install` produces more than
nine "can't completely install" warning dialogs. -/
theorem nine_unhandled_categories (P : Platform σ) (H : Host) (F : Framework) (U : User)
    (modName : GuessedValue) (gameName archiveName version : String) (nexusID : Int)
    (settings : Settings) (ini : σ) (scriptData : ScriptReturnData) :
    (unhandledScriptReturnDataCounts scriptData).map Prod.fst
      = ["ConflictsWith", "DependsOn", "ESPDeactivation", "ESPEdits", "EarlyPlugins",
          "LoadOrderSet", "PatchFiles", "RegisterBSASet", "SDPEdits"] ∧
    ((unhandledScriptReturnDataCounts scriptData).map Prod.fst).Nodup ∧
    ((unhandledScriptReturnDataCounts scriptData).map Prod.fst).length = 9 ∧
    (unhandledWarnings
      (install P H F U modName gameName archiveName version nexusID settings ini).1.trace).length
      ≤ 9 := by
  refine ⟨by rw [unhandledScriptReturnDataCounts_eq]; rfl,
    by simp +decide [unhandledScriptReturnDataCounts_eq],
    by rw [unhandledScriptReturnDataCounts_eq]; rfl, ?_⟩
  cases hopen : F.omod with
  | error what =>
    rw [(install_of_open_error P H F U modName gameName archiveName version nexusID settings ini
      what hopen).2.2]
    simp [unhandledWarnings, Event.unhandledWarning?]
  | ok omod =>
    cases hmod : (H.createMod (guessedName H omod modName)).2 with
    | none =>
      rw [(install_of_no_mod P H F U modName gameName archiveName version nexusID settings ini
        omod hopen hmod).2.2]
      simp [unhandledWarnings, Event.unhandledWarning?]
    | some modInterface =>
      rw [install_of_mod P H F U modName gameName archiveName version nexusID settings ini omod
        modInterface hopen hmod]
      have hle := installContents_warnings_le P H F U omod
        (H.createMod (guessedName H omod modName)).1 modInterface archiveName
        (atLine97 P H U omod modName archiveName settings ini)
      have hw0 : unhandledWarnings
          (atLine97 P H U omod modName archiveName settings ini).trace = [] :=
        atLine97_filterMap Event.unhandledWarning? P H U omod modName archiveName settings ini
          (by intros; rfl) (by intros; rfl) (by intros; rfl) (by intros; rfl)
          (by intros; rfl) (by intros; rfl)
      rw [hw0] at hle
      split <;>
        simpa [unhandledWarnings, List.filterMap_append, Event.unhandledWarning?] using hle

/-! ## The installed plugins -/

theorem toLower_eq_iff_of_not_letter (c d : Char) (hd1 : ¬ (65 ≤ d.toNat ∧ d.toNat ≤ 90))
    (hd2 : ¬ (97 ≤ d.toNat ∧ d.toNat ≤ 122)) : c.toLower = d ↔ c = d := by
  unfold Char.toLower
  by_cases h : c.toNat ≥ 65 ∧ c.toNat ≤ 90
  · simp only [h, and_self, if_true]
    constructor
    · intro he
      exfalso
      apply hd2
      rw [← he]
      obtain ⟨h1, h2⟩ := h
      generalize c.toNat = n at h1 h2
      interval_cases n <;> decide
    · intro he
      exfalso
      apply hd1
      rw [← he]
      exact h
  · simp [h]

theorem keepsSeparators_toLower : keepsSeparators Char.toLower := fun c =>
  ⟨toLower_eq_iff_of_not_letter c '.' (by decide) (by decide),
    toLower_eq_iff_of_not_letter c '/' (by decide) (by decide),
    toLower_eq_iff_of_not_letter c (Char.ofNat 92) (by decide) (by decide),
    toLower_eq_iff_of_not_letter c ':' (by decide) (by decide)⟩

end OMODFrameworkWrapper
